import Mathlib

/-!
# Verification of the LendingClub cleaning pipeline (src/data/clean_dataset.py)

A shallow embedding of the pandas-based cleaning pipeline.  A dataframe is
modelled as an ordered association list of named columns; each column is a
list of cell values aligned by row position.  Missing values (pandas NaN)
are the explicit constructor `Value.na`.  Operations that pandas makes fatal
(selecting an absent column, a failed integer coercion, a strict column
drop) are modelled in the `Except PyErr` monad; `PyErr` distinguishes the
pandas exception classes KeyError and ValueError, which decides whether the
source's lone `except ValueError` handler can fire.

The external reference dictionary (read from an Excel file in the source)
is passed to `fix_missing_values` as an explicit parameter: a list of rows,
each an optional column-name key (`LoanStatNew`) and an optional free-text
`Description`; `pd.read_excel(..).dropna()` corresponds to discarding rows
where either field is absent.
-/

set_option autoImplicit false

/-- A cell of the dataframe: a string, an integer, a boolean, or NaN. -/
inductive Value where
  | str (s : String)
  | int (n : Int)
  | bool (b : Bool)
  | na
  deriving DecidableEq, Repr

instance : BEq Value := ⟨fun a b => decide (a = b)⟩

instance : LawfulBEq Value where
  eq_of_beq h := of_decide_eq_true h
  rfl := by intro a; simp [BEq.beq]

/-- A pandas/Python exception: `drop`, column selection and `fillna` on an
absent label raise KeyError (for `drop(columns=...)` this holds in every
pandas release that has the keyword, 0.21.0 onward); a failed numeric
coercion raises ValueError. -/
inductive PyErr where
  | keyError (msg : String)
  | valueError (msg : String)
  deriving DecidableEq, Repr

/-- `pd.isna` on a single cell. -/
def Value.isNa : Value → Bool
  | .na => true
  | _ => false

/-- A named column: column name together with its cells, top row first. -/
abbrev Column := String × List Value

/-- A dataframe: ordered list of named columns. -/
abbrev Table := List Column

/-- `df[name]`: the first column with the given name, if any. -/
def getCol (df : Table) (name : String) : Option (List Value) :=
  match df with
  | [] => none
  | c :: rest => if c.1 = name then some c.2 else getCol rest name

/-- `df[name] = vals`: overwrite every column of that name in place, or
append a new column at the right end when the name is absent. -/
def setCol (df : Table) (name : String) (vals : List Value) : Table :=
  if df.any (fun c => c.1 = name) then
    df.map (fun c => if c.1 = name then (name, vals) else c)
  else
    df ++ [(name, vals)]

/-- `df.drop(columns=names, errors='ignore')`: remove the named columns,
silently skipping names that are absent. -/
def dropIgnore (df : Table) (names : List String) : Table :=
  df.filter (fun c => !(names.contains c.1))

/-- `df.drop(columns=names)`: remove the named columns; error when any of
the names is absent from the table. -/
def dropStrict (df : Table) (names : List String) : Except PyErr Table :=
  if names.all (fun n => df.any (fun c => c.1 = n)) then
    .ok (dropIgnore df names)
  else
    .error (PyErr.keyError "not found in axis")

/-- Keep the entries of a list selected by a boolean mask (row selection). -/
def applyMask {α : Type} : List Bool → List α → List α
  | true :: ms, x :: xs => x :: applyMask ms xs
  | false :: ms, _ :: xs => applyMask ms xs
  | _, _ => []

/-- `df[df[name].apply(keep)]`: keep exactly the rows whose value in the
named column satisfies `keep`; error when the column is absent. -/
def filterRows (df : Table) (name : String) (keep : Value → Bool) :
    Except PyErr Table :=
  match getCol df name with
  | none => .error (PyErr.keyError name)
  | some vals =>
    let mask := vals.map keep
    .ok (df.map (fun c => (c.1, applyMask mask c.2)))

/-- `fillna` on one cell. -/
def fillnaVal (fill : Value) (v : Value) : Value :=
  if v.isNa then fill else v

/-- `col.fillna(fill)` on a whole column. -/
def fillnaList (vals : List Value) (fill : Value) : List Value :=
  vals.map (fillnaVal fill)

/-- `df[name] = df[name].fillna(fill)`; error when the column is absent. -/
def fillColStrict (df : Table) (name : String) (fill : Value) :
    Except PyErr Table :=
  match getCol df name with
  | none => .error (PyErr.keyError name)
  | some vals => .ok (setCol df name (fillnaList vals fill))

/-- `df[names] = df[names].fillna(0)`: zero-fill each of the named columns;
error when any of the names is absent (pandas raises on selection). -/
def fillZeroAll (df : Table) (names : List String) : Except PyErr Table :=
  if names.all (fun n => (getCol df n).isSome) then
    .ok (df.map (fun c =>
      (c.1, if names.contains c.1 then fillnaList c.2 (.int 0) else c.2)))
  else
    .error (PyErr.keyError "column not found for fillna")

/-- Names of the columns that currently contain at least one missing value:
`df.columns[df.isna().any()]`. -/
def colsWithNa (df : Table) : List String :=
  (df.filter (fun c => c.2.any Value.isNa)).map (fun c => c.1)

/-- The table has no missing value in any column. -/
def hasNoNa (df : Table) : Bool :=
  df.all (fun c => c.2.all (fun v => !v.isNa))

/-! ## String helpers mirroring the Python string operations used -/

/-- Is `pat` a contiguous sublist of `s`? -/
def hasSubList (pat : List Char) : List Char → Bool
  | [] => pat.isEmpty
  | c :: rest => pat.isPrefixOf (c :: rest) || hasSubList pat rest

/-- Python `pat in s` (substring containment). -/
def containsSub (s pat : String) : Bool :=
  hasSubList pat.data s.data

/-- ASCII lower-casing of one character. -/
def lowerChar (c : Char) : Char :=
  if 'A' ≤ c ∧ c ≤ 'Z' then Char.ofNat (c.toNat + 32) else c

/-- Case-insensitive substring containment, as in the
`str.contains(..., case=False)` dictionary match. -/
def containsCI (s pat : String) : Bool :=
  hasSubList (pat.data.map lowerChar) (s.data.map lowerChar)

/-- Python `s.startswith(pat)`. -/
def startsWithStr (s pat : String) : Bool :=
  pat.data.isPrefixOf s.data

/-- Python string slice `s[a:b]` (by character position, clamped). -/
def strSlice (a b : Nat) (s : String) : String :=
  String.mk ((s.data.drop a).take (b - a))

/-- Decimal digits to a natural number. -/
def digitsToNat (ds : List Char) : Nat :=
  ds.foldl (fun n c => 10 * n + (c.toNat - 48)) 0

/-- Python `int(s)`: strip surrounding whitespace, then parse an optionally
signed decimal integer; `none` when the text is not such an integer. -/
def pyInt (s : String) : Option Int :=
  let t := ((s.data.dropWhile Char.isWhitespace).reverse.dropWhile
    Char.isWhitespace).reverse
  match t with
  | [] => none
  | '-' :: ds =>
    if ds.isEmpty then none
    else if ds.all Char.isDigit then some (-(digitsToNat ds : Int)) else none
  | ds =>
    if ds.all Char.isDigit then some (digitsToNat ds) else none

/-! ## add_target_variable (clean_dataset.py lines 11-26) -/

/-- The "defaulted" loan statuses (`default_client_values`). -/
def default_client_values : List String :=
  ["Charged Off", "Default",
   "Does not meet the credit policy. Status:Charged Off",
   "Late (31-120 days)"]

/-- The "non-defaulted" loan statuses (`non_default_client_values`). -/
def non_default_client_values : List String :=
  ["Fully Paid", "Does not meet the credit policy. Status:Fully Paid"]

/-- `target_values = default_client_values + non_default_client_values`. -/
def target_values : List String :=
  default_client_values ++ non_default_client_values

/-- `series.isin(strings)` on one cell. -/
def isinStr (strings : List String) (v : Value) : Bool :=
  strings.any (fun s => v = Value.str s)

/-- `add_target_variable`: add the boolean `target` column, keep only rows
whose status is in one of the two allow-lists, drop `loan_status`. -/
def add_target_variable (df : Table) : Except PyErr Table := do
  match getCol df "loan_status" with
  | none => .error (PyErr.keyError "loan_status")
  | some status =>
    let df1 := setCol df "target"
      (status.map (fun v => Value.bool (isinStr default_client_values v)))
    let df2 ← filterRows df1 "loan_status" (isinStr target_values)
    dropStrict df2 ["loan_status"]

/-! ## fix_missing_values (clean_dataset.py lines 68-155) -/

/-- One row of the reference data dictionary: the `LoanStatNew` column-name
key and the free-text `Description`, either possibly missing. -/
abbrev DictRow := Option String × Option String

/-- The dynamically derived hardship/settlement column names:
`read_excel(..).dropna()`, then keep rows whose description contains
"settle" or "hardship" case-insensitively, and project the name key. -/
def settlementCols (dict : List DictRow) : List String :=
  ((dict.filter (fun r => r.1.isSome && r.2.isSome)).filter (fun r =>
      match r.2 with
      | some d => containsCI d "settle" || containsCI d "hardship"
      | none => false)).filterMap (fun r => r.1)

/-- The `try: df.drop(settlement_cols) except ValueError:
df.drop(..., errors='ignore')` block.  The handler names ValueError, but in
every pandas release that accepts `drop(columns=...)` a missing label
raises KeyError, so the tolerant fallback is dead code and the KeyError of
an absent dynamic column propagates uncaught. -/
def settlementDrop (df : Table) (cols : List String) : Except PyErr Table :=
  match dropStrict df cols with
  | .ok d => .ok d
  | .error (PyErr.valueError _) => .ok (dropIgnore df cols)
  | .error e => .error e

/-- A column name relating to joint applications:
`'joint' in x or 'sec_app' in x`. -/
def isJointName (x : String) : Bool :=
  containsSub x "joint" || containsSub x "sec_app"

/-- `joint_columns = [x for x in df.columns if 'joint' in x or 'sec_app' in x]`. -/
def jointPurgeCols (df : Table) : List String :=
  (df.map (fun c => c.1)).filter isJointName

/-- The three identifier columns whose every value is missing. -/
def all_values_missing : List String := ["id", "member_id", "url"]

/-- The fixed flag columns zero-filled in `fix_missing_values`. -/
def flag_cols : List String :=
  ["max_bal_bc", "open_acc_6m", "open_act_il", "open_il_12m",
   "open_il_24m", "total_bal_il", "open_rv_24m", "open_rv_12m",
   "inq_last_12m", "inq_fi", "total_cu_tl"]

/-- The fixed low-frequency columns zero-filled in `fix_missing_values`. -/
def low_freq_cols : List String :=
  ["tot_cur_bal", "tot_coll_amt", "emp_length", "avg_cur_bal", "tax_liens",
   "total_rev_hi_lim", "total_il_high_credit_limit", "tot_hi_cred_lim",
   "pct_tl_nvr_dlq", "percent_bc_gt_75", "bc_open_to_buy", "mort_acc",
   "acc_open_past_24mths", "total_bc_limit", "total_bal_ex_mort",
   "pub_rec_bankruptcies", "collections_12_mths_ex_med",
   "chargeoff_within_12_mths"]

/-- The months-since columns zero-filled at the end of the fill list. -/
def mo_sin_cols : List String :=
  ["mo_sin_rcnt_rev_tl_op", "mo_sin_rcnt_tl", "mths_since_recent_inq",
   "mo_sin_old_rev_tl_op", "mo_sin_old_il_acct", "mths_since_recent_bc"]

/-- The first batch of columns dropped outright (payment recency). -/
def pymnt_drop_cols : List String :=
  ["next_pymnt_d", "last_pymnt_d", "last_pymnt_amnt", "last_credit_pull_d"]

/-- The months-since columns dropped outright after flag derivation. -/
def mths_since_drop_cols : List String :=
  ["mths_since_rcnt_il", "mths_since_last_record",
   "mths_since_recent_bc_dlq", "mths_since_last_major_derog",
   "mths_since_recent_revol_delinq", "mths_since_last_delinq"]

/-- The full `cols_to_drop` list of `fix_missing_values`. -/
def cols_to_drop_all : List String :=
  pymnt_drop_cols ++ mths_since_drop_cols

/-- The five presence flags and their source columns, in source order. -/
def presence_flag_pairs : List (String × String) :=
  [("has_public_record", "mths_since_last_record"),
   ("has_recent_bc_dlq", "mths_since_recent_bc_dlq"),
   ("has_major_derog", "mths_since_last_major_derog"),
   ("has_recent_revol_delinq", "mths_since_recent_revol_delinq"),
   ("has_recent_delinq", "mths_since_last_delinq")]

/-- The row predicate of the joint-application row drop:
`df["application_type"] != "Individual"` rows are removed, so a row is kept
exactly when its value equals the string "Individual" (a missing value
compares unequal, as in pandas). -/
def isIndividual (v : Value) : Bool :=
  v = Value.str "Individual"

/-- `df[flag] = ~df[src].isna()`; error when the source column is absent. -/
def deriveFlag (df : Table) (flag src : String) : Except PyErr Table :=
  match getCol df src with
  | none => .error (PyErr.keyError src)
  | some vals => .ok (setCol df flag (vals.map (fun v => Value.bool (!v.isNa))))

/-- The full `cols_to_set_zero` list, assembled in source order from the
dynamically detected `num_`/`_util` columns and the fixed lists. -/
def colsToSetZero (columns_remaining : List String) : List String :=
  (columns_remaining.filter (fun x => startsWithStr x "num_")) ++
  (columns_remaining.filter (fun x => containsSub x "_util")) ++
  flag_cols ++ low_freq_cols ++ mo_sin_cols

/-- `fix_missing_values`: the MissingValueResolver stage, with the reference
data dictionary passed as an explicit parameter. -/
def fix_missing_values (dict : List DictRow) (df : Table) :
    Except PyErr Table := do
  -- These columns have all values missing, so we just drop them.
  let df ← dropStrict df all_values_missing
  -- If employment length is not known, fill with zero.
  let df ← fillColStrict df "emp_length" (.str "0 years")
  -- Use the data dictionary to drop hardship and settlement fields.
  let df ← settlementDrop df (settlementCols dict)
  -- Drop all columns and rows relating to joint applications.
  let df := dropIgnore df (jointPurgeCols df)
  let df ← filterRows df "application_type" isIndividual
  -- Now we work through the remaining columns.
  let columns_remaining := colsWithNa df
  -- Drop date columns as uninformative (computed but unused in the source).
  let _date_cols := columns_remaining.filter (fun x => containsSub x "_d")
  -- If value is missing here, we assume the event has never happened,
  -- so set a boolean flag.
  let df ← deriveFlag df "has_public_record" "mths_since_last_record"
  let df ← deriveFlag df "has_recent_bc_dlq" "mths_since_recent_bc_dlq"
  let df ← deriveFlag df "has_major_derog" "mths_since_last_major_derog"
  let df ← deriveFlag df "has_recent_revol_delinq" "mths_since_recent_revol_delinq"
  let df ← deriveFlag df "has_recent_delinq" "mths_since_last_delinq"
  let df ← fillZeroAll df (colsToSetZero columns_remaining)
  dropStrict df cols_to_drop_all

/-! ## remove_future_columns (clean_dataset.py lines 157-173) -/

/-- The fixed list of leakage (post-outcome) columns. -/
def future_cols : List String :=
  ["collection_recovery_fee", "funded_amnt", "funded_amnt_inv", "out_prncp",
   "out_prncp_inv", "recoveries", "total_pymnt", "total_pymnt_inv",
   "total_rec_int", "total_rec_late_fee", "total_rec_prncp"]

/-- `remove_future_columns`: strict drop of the fixed leakage list. -/
def remove_future_columns (df : Table) : Except PyErr Table :=
  dropStrict df future_cols

/-! ## fix_dtypes (clean_dataset.py lines 28-66) -/

/-- `df[new] = df[src] == lit`; error when the source column is absent. -/
def deriveEq (df : Table) (new src lit : String) : Except PyErr Table :=
  match getCol df src with
  | none => .error (PyErr.keyError src)
  | some vals =>
    .ok (setCol df new (vals.map (fun v => Value.bool (v = Value.str lit))))

/-- `series.str[a:b]` on one cell: slice a string, NaN otherwise. -/
def strSliceVal (a b : Nat) (v : Value) : Value :=
  match v with
  | .str s => .str (strSlice a b s)
  | _ => .na

/-- `astype(int)` on one cell: parse strings as Python `int` does, pass
integers through, map booleans to 0/1, fail on NaN. -/
def astypeIntVal : Value → Option Value
  | .str s => (pyInt s).map Value.int
  | .int n => some (.int n)
  | .bool b => some (.int (if b then 1 else 0))
  | .na => none

/-- `astype(int)` on a whole column: every cell must convert. -/
def astypeIntList : List Value → Except PyErr (List Value)
  | [] => .ok []
  | v :: vs =>
    match astypeIntVal v with
    | some w => do
      let rest ← astypeIntList vs
      .ok (w :: rest)
    | none => .error (PyErr.valueError "invalid literal for int()")

/-- `df[new] = df[src].str[a:b].astype(int)`. -/
def deriveSliceInt (df : Table) (new src : String) (a b : Nat) :
    Except PyErr Table :=
  match getCol df src with
  | none => .error (PyErr.keyError src)
  | some vals => do
    let ivals ← astypeIntList (vals.map (strSliceVal a b))
    .ok (setCol df new ivals)

/-- `pd.to_datetime` on one cell.  Date parsing itself is outside every
claim; the embedding records the conversion as value-preserving (a failed
parse in pandas would be fatal, which only enlarges the set of inputs the
success hypotheses of the theorems below quantify over). -/
def toDatetimeVal (v : Value) : Value := v

/-- `df[name] = pd.to_datetime(df[name], ...)`; error when absent. -/
def toDatetimeCol (df : Table) (name : String) : Except PyErr Table :=
  match getCol df name with
  | none => .error (PyErr.keyError name)
  | some vals => .ok (setCol df name (vals.map toDatetimeVal))

/-- `df[name] = df[name].astype('category')`: the categorical dtype change
keeps every cell value; error when the column is absent. -/
def toCategoryCol (df : Table) (name : String) : Except PyErr Table :=
  match getCol df name with
  | none => .error (PyErr.keyError name)
  | some vals => .ok (setCol df name vals)

/-- The `replace` mapping applied to `emp_length` before extraction. -/
def replEmpVal (v : Value) : Value :=
  if v = Value.str "10+ years" then Value.str "10 years"
  else if v = Value.str "< 1 year" then Value.str "0 years"
  else v

/-- The columns converted to categorical type. -/
def category_cols : List String :=
  ["grade", "sub_grade", "home_ownership", "verification_status",
   "purpose", "addr_state"]

/-- `fix_dtypes`: the TypeNormalizer stage. -/
def fix_dtypes (df : Table) : Except PyErr Table := do
  -- Convert columns to boolean flags, and drop the original columns.
  let df ← deriveEq df "is_payment_plan" "pymnt_plan" "y"
  let df ← deriveEq df "is_whole_loan" "initial_list_status" "w"
  let df ← deriveEq df "is_individual_app" "application_type" "Individual"
  let df ← deriveEq df "is_36_month_term" "term" "36 months"
  let df ← deriveSliceInt df "term_months" "term" 1 3
  let df ← deriveEq df "is_cash" "disbursement_method" "Cash"
  let df ← dropStrict df
    ["pymnt_plan", "initial_list_status", "application_type",
     "term", "disbursement_method"]
  -- Convert columns to datetime columns.
  let df ← toDatetimeCol df "issue_d"
  let df ← toDatetimeCol df "earliest_cr_line"
  -- Convert columns to categorical type.
  let df ← toCategoryCol df "grade"
  let df ← toCategoryCol df "sub_grade"
  let df ← toCategoryCol df "home_ownership"
  let df ← toCategoryCol df "verification_status"
  let df ← toCategoryCol df "purpose"
  let df ← toCategoryCol df "addr_state"
  -- Convert employment length to an integer field.
  let df ← (match getCol df "emp_length" with
    | none => .error (PyErr.keyError "emp_length")
    | some vals => .ok (setCol df "emp_length" (vals.map replEmpVal)))
  let df ← (match getCol df "emp_length" with
    | none => .error (PyErr.keyError "emp_length")
    | some vals => do
      let ivals ← astypeIntList (vals.map (strSliceVal 0 2))
      .ok (setCol df "emp_length" ivals))
  -- Drop uninformative columns.
  dropStrict df ["emp_title", "desc", "title", "zip_code"]

/-! ## clean_dataset (clean_dataset.py lines 175-207) -/

/-- `clean_dataset`: the orchestrator, composing the four stages in the
fixed source order (label, resolve missing, remove leakage, fix types). -/
def clean_dataset (dict : List DictRow) (df : Table) : Except PyErr Table := do
  let df ← add_target_variable df
  let df ← fix_missing_values dict df
  let df ← remove_future_columns df
  fix_dtypes df

/-! ## Basic lemmas about the table operations -/

/-! ## Derived name lists, policy predicate and example tables -/

/-- The column names `fix_dtypes` writes to or drops. -/
def dtypes_touched_names : List String :=
  ["is_payment_plan", "is_whole_loan", "is_individual_app", "is_36_month_term",
   "term_months", "is_cash", "pymnt_plan", "initial_list_status",
   "application_type", "term", "disbursement_method", "issue_d",
   "earliest_cr_line", "grade", "sub_grade", "home_ownership",
   "verification_status", "purpose", "addr_state", "emp_length",
   "emp_title", "desc", "title", "zip_code"]

/-- The per-cell transformation `fix_dtypes` applies to `emp_length`:
the `replace` rewrites, then the `[:2]` slice, then `astype(int)`. -/
def empDtypeMap (v : Value) : Option Value :=
  astypeIntVal (strSliceVal 0 2 (replEmpVal v))

/-- A column name is covered by the missing-value policy of
`fix_missing_values`: it is dropped as wholly empty, sentinel-filled,
dynamically dropped via the dictionary, joint-purged, zero-filled
(dynamically by name pattern or by fixed list), or dropped outright.
An input table conforms to the expected schema of the resolver when
every column that contains a missing value is covered. -/
def handledByPolicy (dict : List DictRow) (n : String) : Bool :=
  all_values_missing.contains n || n = "emp_length" ||
  (settlementCols dict).contains n || isJointName n ||
  startsWithStr n "num_" || containsSub n "_util" ||
  flag_cols.contains n || low_freq_cols.contains n || mo_sin_cols.contains n ||
  cols_to_drop_all.contains n

/-- The per-cell transformation the whole pipeline applies to the
`emp_length` column of a retained row: the "0 years" fill for a missing
value (missing-value stage), then the `replace` rewrites, the `[:2]`
slice and `astype(int)` (type stage). -/
def empLengthMap (v : Value) : Option Value :=
  empDtypeMap (fillnaVal (Value.str "0 years") v)

/-- A minimal table with full `fix_dtypes` schema and a chosen `term`
column. -/
def termTestTable (terms : List Value) : Table :=
  [("pymnt_plan", List.replicate terms.length (Value.str "n")),
   ("initial_list_status", List.replicate terms.length (Value.str "w")),
   ("application_type", List.replicate terms.length (Value.str "Individual")),
   ("term", terms),
   ("disbursement_method", List.replicate terms.length (Value.str "Cash")),
   ("issue_d", List.replicate terms.length (Value.str "Dec-2015")),
   ("earliest_cr_line", List.replicate terms.length (Value.str "Aug-2003")),
   ("grade", List.replicate terms.length (Value.str "B")),
   ("sub_grade", List.replicate terms.length (Value.str "B2")),
   ("home_ownership", List.replicate terms.length (Value.str "RENT")),
   ("verification_status", List.replicate terms.length (Value.str "Verified")),
   ("purpose", List.replicate terms.length (Value.str "credit_card")),
   ("addr_state", List.replicate terms.length (Value.str "CA")),
   ("emp_length", List.replicate terms.length (Value.str "5 years")),
   ("emp_title", List.replicate terms.length (Value.str "Engineer")),
   ("desc", List.replicate terms.length (Value.str "note")),
   ("title", List.replicate terms.length (Value.str "Consolidation")),
   ("zip_code", List.replicate terms.length (Value.str "940xx"))]

/-- The term table in the format the claim describes: no leading space. -/
def c3_plain : Table :=
  termTestTable [Value.str "36 months", Value.str "60 months"]

/-- The term table in the raw-data format with a leading space. -/
def c3_spaced : Table :=
  termTestTable [Value.str " 36 months", Value.str " 60 months"]

def c3_plain_out : Table := ((fix_dtypes c3_plain).toOption).getD []

def c3_spaced_out : Table := ((fix_dtypes c3_spaced).toOption).getD []

/-- A six-value all-missing column. -/
def naCol6 : List Value := List.replicate 6 .na

def mixA : List Value := [.int 1, .na, .int 2, .int 0, .na, .int 3]

def mixB : List Value := [.int 0, .int 1, .na, .int 2, .int 3, .na]

def mixC : List Value := [.na, .int 2, .int 1, .int 0, .int 4, .int 5]

def futVals : List Value :=
  [.int 100, .int 200, .int 300, .int 400, .int 500, .int 600]

/-- A small reference data dictionary: one hardship row, one row removed
by `dropna`, one settlement row, one unrelated row.  Both derived names
are present in the example table, so the strict dynamic drop succeeds. -/
def exDict : List DictRow :=
  [(some "hardship_flag", some "Flags whether the borrower is on a hardship plan"),
   (none, some "settlement related row dropped by dropna"),
   (some "settlement_status", some "The status of the borrower Settlement Plan"),
   (some "loan_amnt", some "The listed amount of the loan")]

/-- A six-row raw input table covering the full expected schema: one row
with an unrecognised status ("Current"), one joint-application row, the
four `emp_length` shapes, missing values in every policy category, and
joint-named columns. -/
def exTable : Table :=
  [("id", naCol6), ("member_id", naCol6), ("url", naCol6),
   ("loan_status",
     [.str "Fully Paid", .str "Charged Off", .str "Current",
      .str "Fully Paid", .str "Fully Paid", .str "Fully Paid"]),
   ("application_type",
     [.str "Individual", .str "Individual", .str "Individual",
      .str "Joint App", .str "Individual", .str "Individual"]),
   ("emp_length",
     [.str "10+ years", .str "< 1 year", .str "1 year",
      .str "3 years", .str "5 years", .na]),
   ("annual_inc_joint", [.na, .na, .na, .int 5, .na, .na]),
   ("sec_app_fico_range_low", naCol6),
   ("hardship_flag", List.replicate 6 (.str "N")),
   ("settlement_status", naCol6),
   ("mths_since_last_record", [.na, .int 3, .int 9, .int 9, .na, .int 7]),
   ("mths_since_recent_bc_dlq", [.int 1, .na, .int 2, .int 2, .int 4, .na]),
   ("mths_since_last_major_derog", [.na, .na, .int 1, .int 1, .int 5, .int 6]),
   ("mths_since_recent_revol_delinq", [.int 2, .int 3, .na, .int 1, .na, .int 8]),
   ("mths_since_last_delinq", [.na, .int 1, .int 1, .int 1, .int 2, .na]),
   ("mths_since_rcnt_il", [.na, .na, .int 1, .int 2, .int 3, .na]),
   ("num_tl_120dpd_2m", [.na, .int 0, .int 0, .int 0, .int 1, .na]),
   ("revol_util", [.int 50, .na, .int 10, .int 10, .int 30, .int 60]),
   ("loan_amnt", futVals),
   ("pymnt_plan", List.replicate 6 (.str "n")),
   ("initial_list_status",
     [.str "w", .str "f", .str "w", .str "f", .str "w", .str "f"]),
   ("term", List.replicate 6 (.str "36 months")),
   ("disbursement_method", List.replicate 6 (.str "Cash")),
   ("issue_d", List.replicate 6 (.str "Dec-2015")),
   ("earliest_cr_line", List.replicate 6 (.str "Aug-2003")),
   ("emp_title", List.replicate 6 (.str "Engineer")),
   ("desc", List.replicate 6 (.str "borrower note")),
   ("title", List.replicate 6 (.str "Debt consolidation")),
   ("zip_code", List.replicate 6 (.str "940xx"))] ++
  (category_cols.map (fun n => (n, List.replicate 6 (Value.str "A1")))) ++
  (flag_cols.map (fun n => (n, mixA))) ++
  ((low_freq_cols.filter (fun n => !(n = "emp_length"))).map (fun n => (n, mixB))) ++
  (mo_sin_cols.map (fun n => (n, mixC))) ++
  (pymnt_drop_cols.map (fun n => (n, naCol6))) ++
  (future_cols.map (fun n => (n, futVals)))

def exDf1 : Table := ((add_target_variable exTable).toOption).getD []

def exMid : Table := ((fix_missing_values exDict exDf1).toOption).getD []

def exOut : Table := ((clean_dataset exDict exTable).toOption).getD []

/-- Witness for C2 at the example table: the flags over the four retained
rows (statuses Fully Paid, Charged Off, Fully Paid, Fully Paid crossed
with the Joint App row removed) reflect the original missingness. -/
def exApp1 : List Value :=
  [.str "Individual", .str "Individual", .str "Joint App",
   .str "Individual", .str "Individual"]

def exS1 : List Value := [.na, .int 3, .int 9, .na, .int 7]

def exS2 : List Value := [.int 1, .na, .int 2, .int 4, .na]

def exS3 : List Value := [.na, .na, .int 1, .int 5, .int 6]

def exS4 : List Value := [.int 2, .int 3, .int 1, .na, .int 8]

def exS5 : List Value := [.na, .int 1, .int 1, .int 2, .na]

def c4Table : Table :=
  [("loan_status",
     [Value.str "Fully Paid", Value.str "Charged Off", Value.str "Current"]),
   ("loan_amnt", [Value.int 7, Value.int 8, Value.int 9])]

def c4Out : Table := ((add_target_variable c4Table).toOption).getD []

/-- A table that reaches the dynamic drop of `fix_missing_values` with
both derived settlement names absent from the live columns. -/
def c6Table : Table :=
  [("id", [Value.na]), ("member_id", [Value.na]), ("url", [Value.na]),
   ("emp_length", [Value.str "5 years"])]

/-! ## Theorems -/

theorem exceptBind_ok {α β : Type} {x : Except PyErr α} {f : α → Except PyErr β}
    {b : β} (h : x >>= f = .ok b) : ∃ a, x = .ok a ∧ f a = .ok b := by
  cases x with
  | ok a => exact ⟨a, rfl, h⟩
  | error e => simp [Bind.bind, Except.bind] at h

theorem getCol_setMap_ne (df : Table) (n m : String) (vs : List Value)
    (h : m ≠ n) :
    getCol (df.map (fun c => if c.1 = n then (n, vs) else c)) m = getCol df m := by
  induction df with
  | nil => rfl
  | cons c rest ih =>
    by_cases hc : c.1 = n
    · simp only [List.map_cons, if_pos hc]
      rw [getCol, getCol, if_neg (Ne.symm h), if_neg (by rw [hc]; exact Ne.symm h)]
      exact ih
    · simp only [List.map_cons, if_neg hc]
      rw [getCol, getCol]
      split
      · rfl
      · exact ih

theorem getCol_setMap_self (df : Table) (n : String) (vs : List Value)
    (h : df.any (fun c => c.1 = n)) :
    getCol (df.map (fun c => if c.1 = n then (n, vs) else c)) n = some vs := by
  induction df with
  | nil => simp at h
  | cons c rest ih =>
    by_cases hc : c.1 = n
    · simp [List.map_cons, if_pos hc, getCol]
    · simp only [List.map_cons, if_neg hc]
      rw [getCol, if_neg hc]
      refine ih ?_
      simp only [List.any_cons, Bool.or_eq_true, decide_eq_true_eq] at h
      rcases h with h | h
      · exact absurd h hc
      · exact h

theorem getCol_append_single_ne (df : Table) (n m : String) (vs : List Value)
    (h : m ≠ n) : getCol (df ++ [(n, vs)]) m = getCol df m := by
  induction df with
  | nil => simp [getCol, Ne.symm h]
  | cons c rest ih =>
    rw [List.cons_append, getCol, getCol]
    split
    · rfl
    · exact ih

theorem getCol_setCol_self (df : Table) (n : String) (vs : List Value) :
    getCol (setCol df n vs) n = some vs := by
  unfold setCol
  split
  case isTrue hany => exact getCol_setMap_self df n vs hany
  case isFalse hany =>
    induction df with
    | nil => simp [getCol]
    | cons c rest ih =>
      simp only [List.any_cons, Bool.or_eq_true, decide_eq_true_eq, not_or] at hany
      rw [List.cons_append, getCol, if_neg hany.1]
      exact ih (by simp [hany.2])

theorem getCol_setCol_ne (df : Table) (n m : String) (vs : List Value)
    (h : m ≠ n) : getCol (setCol df n vs) m = getCol df m := by
  unfold setCol
  split
  · exact getCol_setMap_ne df n m vs h
  · exact getCol_append_single_ne df n m vs h

theorem mem_setCol {df : Table} {n : String} {vs : List Value} {c : Column}
    (h : c ∈ setCol df n vs) : c = (n, vs) ∨ (c ∈ df ∧ c.1 ≠ n) := by
  unfold setCol at h
  split at h
  · rw [List.mem_map] at h
    obtain ⟨c0, hc0, heq⟩ := h
    by_cases hc : c0.1 = n
    · left; rw [if_pos hc] at heq; exact heq.symm
    · right; rw [if_neg hc] at heq; exact ⟨heq ▸ hc0, heq ▸ hc⟩
  · rename_i hany
    rw [List.mem_append] at h
    rcases h with h | h
    · right
      refine ⟨h, ?_⟩
      intro hc
      exact hany (by rw [List.any_eq_true]; exact ⟨c, h, by simp [hc]⟩)
    · left; simpa using h

theorem mem_dropIgnore {df : Table} {ns : List String} {c : Column} :
    c ∈ dropIgnore df ns ↔ c ∈ df ∧ ns.contains c.1 = false := by
  unfold dropIgnore
  rw [List.mem_filter]
  simp

theorem getCol_dropIgnore_of_not_mem (df : Table) (ns : List String) (m : String)
    (h : ns.contains m = false) : getCol (dropIgnore df ns) m = getCol df m := by
  induction df with
  | nil => rfl
  | cons c rest ih =>
    unfold dropIgnore
    rw [List.filter_cons]
    by_cases hc : c.1 = m
    · rw [if_pos (by simp [hc]; simpa using h), getCol, getCol, if_pos hc, if_pos hc]
    · rw [getCol, if_neg hc]
      split
      · rw [getCol, if_neg hc]; exact ih
      · exact ih

theorem getCol_dropIgnore_of_mem (df : Table) (ns : List String) (m : String)
    (h : ns.contains m = true) : getCol (dropIgnore df ns) m = none := by
  induction df with
  | nil => rfl
  | cons c rest ih =>
    unfold dropIgnore
    rw [List.filter_cons]
    by_cases hc : c.1 = m
    · rw [if_neg (by simp [hc]; simpa using h)]
      exact ih
    · split
      · rw [getCol, if_neg hc]; exact ih
      · exact ih

theorem dropStrict_ok {df d : Table} {ns : List String}
    (h : dropStrict df ns = .ok d) : d = dropIgnore df ns := by
  unfold dropStrict at h
  split at h
  · exact (Except.ok.injEq _ _ ▸ h).symm
  · exact absurd h (by simp)

theorem settlementDrop_ok {df d : Table} {cols : List String}
    (h : settlementDrop df cols = .ok d) : d = dropIgnore df cols := by
  unfold settlementDrop at h
  split at h
  · rename_i d2 hd2
    have h2 := dropStrict_ok hd2
    have hd : d2 = d := by injection h
    rw [← hd, h2]
  · injection h with he
    exact he.symm
  · exact absurd h (by simp)

theorem getCol_mapValues (df : Table) (g : String → List Value → List Value)
    (m : String) :
    getCol (df.map (fun c => (c.1, g c.1 c.2))) m = (getCol df m).map (g m) := by
  induction df with
  | nil => rfl
  | cons c rest ih =>
    rw [List.map_cons, getCol, getCol]
    by_cases hc : c.1 = m
    · rw [if_pos hc, if_pos hc, hc]; rfl
    · rw [if_neg hc, if_neg hc]; exact ih

theorem filterRows_ok {df d : Table} {n : String} {keep : Value → Bool}
    (h : filterRows df n keep = .ok d) :
    ∃ avals, getCol df n = some avals ∧
      d = df.map (fun c => (c.1, applyMask (avals.map keep) c.2)) := by
  unfold filterRows at h
  cases hg : getCol df n with
  | none => rw [hg] at h; exact absurd h (by simp)
  | some avals =>
    rw [hg] at h
    exact ⟨avals, rfl, by simpa using h.symm⟩

theorem fillZeroAll_ok {df d : Table} {ns : List String}
    (h : fillZeroAll df ns = .ok d) :
    (∀ n ∈ ns, (getCol df n).isSome) ∧
    d = df.map (fun c =>
      (c.1, if ns.contains c.1 then fillnaList c.2 (.int 0) else c.2)) := by
  unfold fillZeroAll at h
  split at h
  · rename_i hall
    refine ⟨?_, by simpa using h.symm⟩
    intro n hn
    rw [List.all_eq_true] at hall
    exact hall n hn
  · exact absurd h (by simp)

theorem deriveFlag_ok {df d : Table} {flag src : String}
    (h : deriveFlag df flag src = .ok d) :
    ∃ vals, getCol df src = some vals ∧
      d = setCol df flag (vals.map (fun v => Value.bool (!v.isNa))) := by
  unfold deriveFlag at h
  cases hg : getCol df src with
  | none => rw [hg] at h; exact absurd h (by simp)
  | some vals =>
    rw [hg] at h
    exact ⟨vals, rfl, by simpa using h.symm⟩

theorem deriveEq_ok {df d : Table} {new src lit : String}
    (h : deriveEq df new src lit = .ok d) :
    ∃ vals, getCol df src = some vals ∧
      d = setCol df new (vals.map (fun v => Value.bool (v = Value.str lit))) := by
  unfold deriveEq at h
  cases hg : getCol df src with
  | none => rw [hg] at h; exact absurd h (by simp)
  | some vals =>
    rw [hg] at h
    exact ⟨vals, rfl, by simpa using h.symm⟩

theorem fillColStrict_ok {df d : Table} {n : String} {fill : Value}
    (h : fillColStrict df n fill = .ok d) :
    ∃ vals, getCol df n = some vals ∧ d = setCol df n (fillnaList vals fill) := by
  unfold fillColStrict at h
  cases hg : getCol df n with
  | none => rw [hg] at h; exact absurd h (by simp)
  | some vals =>
    rw [hg] at h
    exact ⟨vals, rfl, by simpa using h.symm⟩

theorem toDatetimeCol_ok {df d : Table} {n : String}
    (h : toDatetimeCol df n = .ok d) :
    ∃ vals, getCol df n = some vals ∧ d = setCol df n (vals.map toDatetimeVal) := by
  unfold toDatetimeCol at h
  cases hg : getCol df n with
  | none => rw [hg] at h; exact absurd h (by simp)
  | some vals =>
    rw [hg] at h
    exact ⟨vals, rfl, by simpa using h.symm⟩

theorem toCategoryCol_ok {df d : Table} {n : String}
    (h : toCategoryCol df n = .ok d) :
    ∃ vals, getCol df n = some vals ∧ d = setCol df n vals := by
  unfold toCategoryCol at h
  cases hg : getCol df n with
  | none => rw [hg] at h; exact absurd h (by simp)
  | some vals =>
    rw [hg] at h
    exact ⟨vals, rfl, by simpa using h.symm⟩

theorem deriveSliceInt_ok {df d : Table} {new src : String} {a b : Nat}
    (h : deriveSliceInt df new src a b = .ok d) :
    ∃ vals ivals, getCol df src = some vals ∧
      astypeIntList (vals.map (strSliceVal a b)) = .ok ivals ∧
      d = setCol df new ivals := by
  unfold deriveSliceInt at h
  cases hg : getCol df src with
  | none => rw [hg] at h; exact absurd h (by simp)
  | some vals =>
    rw [hg] at h
    dsimp only at h
    cases ha : astypeIntList (vals.map (strSliceVal a b)) with
    | error e => rw [ha] at h; exact absurd h (by simp [Bind.bind, Except.bind])
    | ok ivals =>
      rw [ha] at h
      simp only [Bind.bind, Except.bind] at h
      exact ⟨vals, ivals, rfl, ha, by simpa using h.symm⟩

/-! ## Lemmas about masks, fills and coercions -/

theorem mem_applyMask {α : Type} {m : List Bool} {xs : List α} {v : α}
    (h : v ∈ applyMask m xs) : v ∈ xs := by
  induction xs generalizing m with
  | nil => cases m with
    | nil => simp [applyMask] at h
    | cons b ms => cases b <;> simp [applyMask] at h
  | cons x rest ih =>
    cases m with
    | nil => simp [applyMask] at h
    | cons b ms =>
      cases b with
      | true =>
        rw [applyMask] at h
        rcases List.mem_cons.mp h with h | h
        · simp [h]
        · exact List.mem_cons_of_mem _ (ih h)
      | false => exact List.mem_cons_of_mem _ (ih h)

theorem applyMask_map {α β : Type} (f : α → β) (m : List Bool) (xs : List α) :
    applyMask m (xs.map f) = (applyMask m xs).map f := by
  induction xs generalizing m with
  | nil => cases m with
    | nil => rfl
    | cons b ms => cases b <;> rfl
  | cons x rest ih =>
    cases m with
    | nil => rfl
    | cons b ms => cases b <;> simp [applyMask, List.map_cons, ih]

theorem applyMask_selfPred {α : Type} {p : α → Bool} {xs : List α} {v : α}
    (h : v ∈ applyMask (xs.map p) xs) : p v = true := by
  induction xs with
  | nil => simp [applyMask] at h
  | cons x rest ih =>
    rw [List.map_cons] at h
    cases hp : p x with
    | true =>
      rw [hp, applyMask] at h
      rcases List.mem_cons.mp h with h | h
      · rw [h]; exact hp
      · exact ih h
    | false =>
      rw [hp, applyMask] at h
      exact ih h

theorem applyMask_filter {α β : Type} (p : α → Bool) (f : α → β) (xs : List α) :
    applyMask (xs.map p) (xs.map f) = (xs.filter p).map f := by
  induction xs with
  | nil => rfl
  | cons x rest ih =>
    rw [List.map_cons, List.map_cons, List.filter_cons]
    cases hp : p x with
    | true => rw [applyMask, if_pos rfl, List.map_cons, ih]
    | false => rw [applyMask, ih]; rfl

theorem applyMask_sublist {α : Type} (m : List Bool) (xs : List α) :
    (applyMask m xs).Sublist xs := by
  induction xs generalizing m with
  | nil => cases m with
    | nil => exact List.Sublist.refl _
    | cons b ms => cases b <;> exact List.nil_sublist _
  | cons x rest ih =>
    cases m with
    | nil => exact List.nil_sublist _
    | cons b ms =>
      cases b with
      | true => rw [applyMask]; exact List.Sublist.cons₂ x (ih ms)
      | false => rw [applyMask]; exact List.Sublist.cons x (ih ms)

theorem fillnaList_noNa {xs : List Value} {fill : Value} (hf : fill.isNa = false) :
    ∀ v ∈ fillnaList xs fill, v.isNa = false := by
  intro v hv
  rw [fillnaList, List.mem_map] at hv
  obtain ⟨w, _, hw⟩ := hv
  rw [← hw]
  unfold fillnaVal
  split
  · exact hf
  · rename_i hwna
    simpa using hwna

theorem fillnaList_eq_self {xs : List Value} {fill : Value}
    (h : ∀ v ∈ xs, v.isNa = false) : fillnaList xs fill = xs := by
  unfold fillnaList
  induction xs with
  | nil => rfl
  | cons x rest ih =>
    rw [List.map_cons]
    rw [fillnaVal, if_neg (by rw [h x (by simp)]; simp)]
    rw [ih (fun v hv => h v (List.mem_cons_of_mem _ hv))]

theorem astypeIntList_ok {vs ws : List Value} (h : astypeIntList vs = .ok ws) :
    ws.map some = vs.map astypeIntVal := by
  induction vs generalizing ws with
  | nil =>
    rw [astypeIntList] at h
    simp only [Except.ok.injEq] at h
    rw [← h]
    rfl
  | cons v rest ih =>
    rw [astypeIntList] at h
    cases ha : astypeIntVal v with
    | none => rw [ha] at h; exact absurd h (by simp)
    | some w =>
      rw [ha] at h
      cases hr : astypeIntList rest with
      | error e => rw [hr] at h; exact absurd h (by simp [Bind.bind, Except.bind])
      | ok ws0 =>
        rw [hr] at h
        simp only [Bind.bind, Except.bind, Except.ok.injEq] at h
        rw [← h, List.map_cons, List.map_cons, ha, ih hr]

/-! ## Lemmas about the derived column-name lists -/

theorem mem_colsWithNa {df : Table} {c : Column}
    (hc : c ∈ df) (hna : c.2.any Value.isNa = true) : c.1 ∈ colsWithNa df := by
  unfold colsWithNa
  rw [List.mem_map]
  exact ⟨c, List.mem_filter.mpr ⟨hc, hna⟩, rfl⟩

theorem mem_jointPurgeCols {df : Table} {n : String}
    (h : n ∈ jointPurgeCols df) : isJointName n = true := by
  unfold jointPurgeCols at h
  exact (List.mem_filter.mp h).2

theorem jointPurgeCols_complete {df : Table} {c : Column}
    (hc : c ∈ df) (hj : isJointName c.1 = true) : c.1 ∈ jointPurgeCols df := by
  unfold jointPurgeCols
  exact List.mem_filter.mpr ⟨List.mem_map.mpr ⟨c, hc, rfl⟩, hj⟩

theorem mem_colsToSetZero {cr : List String} {n : String}
    (h : n ∈ colsToSetZero cr) :
    startsWithStr n "num_" = true ∨ containsSub n "_util" = true ∨
    n ∈ flag_cols ∨ n ∈ low_freq_cols ∨ n ∈ mo_sin_cols := by
  unfold colsToSetZero at h
  simp only [List.mem_append] at h
  rcases h with ((((h | h) | h) | h) | h)
  · exact Or.inl (List.mem_filter.mp h).2
  · exact Or.inr (Or.inl (List.mem_filter.mp h).2)
  · exact Or.inr (Or.inr (Or.inl h))
  · exact Or.inr (Or.inr (Or.inr (Or.inl h)))
  · exact Or.inr (Or.inr (Or.inr (Or.inr h)))

theorem mem_colsToSetZero_of_num {cr : List String} {n : String}
    (hn : n ∈ cr) (h : startsWithStr n "num_" = true) : n ∈ colsToSetZero cr := by
  unfold colsToSetZero
  simp only [List.mem_append]
  exact Or.inl (Or.inl (Or.inl (Or.inl (List.mem_filter.mpr ⟨hn, h⟩))))

theorem mem_colsToSetZero_of_util {cr : List String} {n : String}
    (hn : n ∈ cr) (h : containsSub n "_util" = true) : n ∈ colsToSetZero cr := by
  unfold colsToSetZero
  simp only [List.mem_append]
  exact Or.inl (Or.inl (Or.inl (Or.inr (List.mem_filter.mpr ⟨hn, h⟩))))

theorem mem_colsToSetZero_of_fixed {cr : List String} {n : String}
    (h : n ∈ flag_cols ∨ n ∈ low_freq_cols ∨ n ∈ mo_sin_cols) :
    n ∈ colsToSetZero cr := by
  unfold colsToSetZero
  simp only [List.mem_append]
  rcases h with h | h | h
  · exact Or.inl (Or.inl (Or.inr h))
  · exact Or.inl (Or.inr h)
  · exact Or.inr h

/-! ## Decomposition of the stage pipelines on success -/

theorem clean_dataset_decomp {dict : List DictRow} {df out : Table}
    (h : clean_dataset dict df = .ok out) :
    ∃ d1 mid mid2, add_target_variable df = .ok d1 ∧
      fix_missing_values dict d1 = .ok mid ∧
      remove_future_columns mid = .ok mid2 ∧
      fix_dtypes mid2 = .ok out := by
  unfold clean_dataset at h
  obtain ⟨d1, h1, h⟩ := exceptBind_ok h
  obtain ⟨mid, h2, h⟩ := exceptBind_ok h
  obtain ⟨mid2, h3, h⟩ := exceptBind_ok h
  exact ⟨d1, mid, mid2, h1, h2, h3, h⟩

theorem fix_missing_values_decomp {dict : List DictRow} {df out : Table}
    (h : fix_missing_values dict df = .ok out) :
    ∃ (d1 d2 d3 d4 : Table) (avals : List Value) (d5 d6 d7 d8 d9 d10 d11 : Table),
      dropStrict df all_values_missing = .ok d1 ∧
      fillColStrict d1 "emp_length" (Value.str "0 years") = .ok d2 ∧
      settlementDrop d2 (settlementCols dict) = .ok d3 ∧
      d3 = dropIgnore d2 (settlementCols dict) ∧
      d4 = dropIgnore d3 (jointPurgeCols d3) ∧
      getCol d4 "application_type" = some avals ∧
      d5 = d4.map (fun c => (c.1, applyMask (avals.map isIndividual) c.2)) ∧
      deriveFlag d5 "has_public_record" "mths_since_last_record" = .ok d6 ∧
      deriveFlag d6 "has_recent_bc_dlq" "mths_since_recent_bc_dlq" = .ok d7 ∧
      deriveFlag d7 "has_major_derog" "mths_since_last_major_derog" = .ok d8 ∧
      deriveFlag d8 "has_recent_revol_delinq" "mths_since_recent_revol_delinq" = .ok d9 ∧
      deriveFlag d9 "has_recent_delinq" "mths_since_last_delinq" = .ok d10 ∧
      fillZeroAll d10 (colsToSetZero (colsWithNa d5)) = .ok d11 ∧
      dropStrict d11 cols_to_drop_all = .ok out := by
  unfold fix_missing_values at h
  obtain ⟨d1, h1, h⟩ := exceptBind_ok h
  obtain ⟨d2, h2, h⟩ := exceptBind_ok h
  obtain ⟨d3x, h3, h⟩ := exceptBind_ok h
  obtain ⟨d5x, h5, h⟩ := exceptBind_ok h
  obtain ⟨avals, hav, hd5⟩ := filterRows_ok h5
  obtain ⟨d6, h6, h⟩ := exceptBind_ok h
  obtain ⟨d7, h7, h⟩ := exceptBind_ok h
  obtain ⟨d8, h8, h⟩ := exceptBind_ok h
  obtain ⟨d9, h9, h⟩ := exceptBind_ok h
  obtain ⟨d10, h10, h⟩ := exceptBind_ok h
  obtain ⟨d11, h11, h⟩ := exceptBind_ok h
  exact ⟨d1, d2, d3x, _, avals, d5x, d6, d7, d8, d9, d10, d11,
    h1, h2, h3, settlementDrop_ok h3, rfl, hav, hd5,
    h6, h7, h8, h9, h10, h11, h⟩

theorem fix_dtypes_decomp {df out : Table} (h : fix_dtypes df = .ok out) :
    ∃ (t1 t2 t3 t4 t5 t6 t7 t8 t9 t10 t11 t12 t13 t14 t15 : Table)
      (ev : List Value) (t16 : Table) (ev2 iv : List Value) (t17 : Table),
      deriveEq df "is_payment_plan" "pymnt_plan" "y" = .ok t1 ∧
      deriveEq t1 "is_whole_loan" "initial_list_status" "w" = .ok t2 ∧
      deriveEq t2 "is_individual_app" "application_type" "Individual" = .ok t3 ∧
      deriveEq t3 "is_36_month_term" "term" "36 months" = .ok t4 ∧
      deriveSliceInt t4 "term_months" "term" 1 3 = .ok t5 ∧
      deriveEq t5 "is_cash" "disbursement_method" "Cash" = .ok t6 ∧
      dropStrict t6 ["pymnt_plan", "initial_list_status", "application_type",
        "term", "disbursement_method"] = .ok t7 ∧
      toDatetimeCol t7 "issue_d" = .ok t8 ∧
      toDatetimeCol t8 "earliest_cr_line" = .ok t9 ∧
      toCategoryCol t9 "grade" = .ok t10 ∧
      toCategoryCol t10 "sub_grade" = .ok t11 ∧
      toCategoryCol t11 "home_ownership" = .ok t12 ∧
      toCategoryCol t12 "verification_status" = .ok t13 ∧
      toCategoryCol t13 "purpose" = .ok t14 ∧
      toCategoryCol t14 "addr_state" = .ok t15 ∧
      getCol t15 "emp_length" = some ev ∧
      t16 = setCol t15 "emp_length" (ev.map replEmpVal) ∧
      getCol t16 "emp_length" = some ev2 ∧
      astypeIntList (ev2.map (strSliceVal 0 2)) = .ok iv ∧
      t17 = setCol t16 "emp_length" iv ∧
      dropStrict t17 ["emp_title", "desc", "title", "zip_code"] = .ok out := by
  unfold fix_dtypes at h
  obtain ⟨t1, e1, h⟩ := exceptBind_ok h
  obtain ⟨t2, e2, h⟩ := exceptBind_ok h
  obtain ⟨t3, e3, h⟩ := exceptBind_ok h
  obtain ⟨t4, e4, h⟩ := exceptBind_ok h
  obtain ⟨t5, e5, h⟩ := exceptBind_ok h
  obtain ⟨t6, e6, h⟩ := exceptBind_ok h
  obtain ⟨t7, e7, h⟩ := exceptBind_ok h
  obtain ⟨t8, e8, h⟩ := exceptBind_ok h
  obtain ⟨t9, e9, h⟩ := exceptBind_ok h
  obtain ⟨t10, e10, h⟩ := exceptBind_ok h
  obtain ⟨t11, e11, h⟩ := exceptBind_ok h
  obtain ⟨t12, e12, h⟩ := exceptBind_ok h
  obtain ⟨t13, e13, h⟩ := exceptBind_ok h
  obtain ⟨t14, e14, h⟩ := exceptBind_ok h
  obtain ⟨t15, e15, h⟩ := exceptBind_ok h
  obtain ⟨t16, e16, h⟩ := exceptBind_ok h
  obtain ⟨t17, e17, h⟩ := exceptBind_ok h
  cases hev : getCol t15 "emp_length" with
  | none => rw [hev] at e16; exact absurd e16 (by simp)
  | some ev =>
    rw [hev] at e16
    dsimp only at e16
    cases hev2 : getCol t16 "emp_length" with
    | none =>
      rw [show t16 = setCol t15 "emp_length" (ev.map replEmpVal) from by
            simpa using e16.symm] at hev2
      rw [getCol_setCol_self] at hev2
      exact absurd hev2 (by simp)
    | some ev2 =>
      rw [hev2] at e17
      dsimp only at e17
      cases hiv : astypeIntList (ev2.map (strSliceVal 0 2)) with
      | error e =>
        rw [hiv] at e17
        exact absurd e17 (by simp [Bind.bind, Except.bind])
      | ok iv =>
        rw [hiv] at e17
        simp only [Bind.bind, Except.bind, Except.ok.injEq] at e17
        exact ⟨t1, t2, t3, t4, t5, t6, t7, t8, t9, t10, t11, t12, t13, t14, t15,
          ev, t16, ev2, iv, t17,
          e1, e2, e3, e4, e5, e6, e7, e8, e9, e10, e11, e12, e13, e14, e15,
          hev, by simpa using e16.symm, hev2, hiv, e17.symm, h⟩

theorem getCol_dropIgnore_not_mem (df : Table) (ns : List String) (m : String)
    (h : m ∉ ns) : getCol (dropIgnore df ns) m = getCol df m :=
  getCol_dropIgnore_of_not_mem df ns m (by simpa using h)

theorem getCol_dropIgnore_mem (df : Table) (ns : List String) (m : String)
    (h : m ∈ ns) : getCol (dropIgnore df ns) m = none :=
  getCol_dropIgnore_of_mem df ns m (by simpa using h)

theorem fix_dtypes_preserves {df out : Table} {n : String}
    (h : fix_dtypes df = .ok out) (hn : n ∉ dtypes_touched_names) :
    getCol out n = getCol df n := by
  simp only [dtypes_touched_names, List.mem_cons, List.not_mem_nil, or_false,
    not_or] at hn
  obtain ⟨a1, a2, a3, a4, a5, a6, a7, a8, a9, a10, a11, a12, a13, a14, a15,
    a16, a17, a18, a19, a20, a21, a22, a23, a24⟩ := hn
  obtain ⟨t1, t2, t3, t4, t5, t6, t7, t8, t9, t10, t11, t12, t13, t14, t15,
    ev, t16, ev2, iv, t17,
    e1, e2, e3, e4, e5, e6, e7, e8, e9, e10, e11, e12, e13, e14, e15,
    hev, ht16, hev2, hiv, ht17, e18⟩ := fix_dtypes_decomp h
  have g1 : getCol t1 n = getCol df n := by
    obtain ⟨_, _, hset⟩ := deriveEq_ok e1
    rw [hset]; exact getCol_setCol_ne _ _ _ _ a1
  have g2 : getCol t2 n = getCol t1 n := by
    obtain ⟨_, _, hset⟩ := deriveEq_ok e2
    rw [hset]; exact getCol_setCol_ne _ _ _ _ a2
  have g3 : getCol t3 n = getCol t2 n := by
    obtain ⟨_, _, hset⟩ := deriveEq_ok e3
    rw [hset]; exact getCol_setCol_ne _ _ _ _ a3
  have g4 : getCol t4 n = getCol t3 n := by
    obtain ⟨_, _, hset⟩ := deriveEq_ok e4
    rw [hset]; exact getCol_setCol_ne _ _ _ _ a4
  have g5 : getCol t5 n = getCol t4 n := by
    obtain ⟨_, _, _, _, hset⟩ := deriveSliceInt_ok e5
    rw [hset]; exact getCol_setCol_ne _ _ _ _ a5
  have g6 : getCol t6 n = getCol t5 n := by
    obtain ⟨_, _, hset⟩ := deriveEq_ok e6
    rw [hset]; exact getCol_setCol_ne _ _ _ _ a6
  have g7 : getCol t7 n = getCol t6 n := by
    rw [dropStrict_ok e7]
    exact getCol_dropIgnore_not_mem _ _ _ (by simp [a7, a8, a9, a10, a11])
  have g8 : getCol t8 n = getCol t7 n := by
    obtain ⟨_, _, hset⟩ := toDatetimeCol_ok e8
    rw [hset]; exact getCol_setCol_ne _ _ _ _ a12
  have g9 : getCol t9 n = getCol t8 n := by
    obtain ⟨_, _, hset⟩ := toDatetimeCol_ok e9
    rw [hset]; exact getCol_setCol_ne _ _ _ _ a13
  have g10 : getCol t10 n = getCol t9 n := by
    obtain ⟨_, _, hset⟩ := toCategoryCol_ok e10
    rw [hset]; exact getCol_setCol_ne _ _ _ _ a14
  have g11 : getCol t11 n = getCol t10 n := by
    obtain ⟨_, _, hset⟩ := toCategoryCol_ok e11
    rw [hset]; exact getCol_setCol_ne _ _ _ _ a15
  have g12 : getCol t12 n = getCol t11 n := by
    obtain ⟨_, _, hset⟩ := toCategoryCol_ok e12
    rw [hset]; exact getCol_setCol_ne _ _ _ _ a16
  have g13 : getCol t13 n = getCol t12 n := by
    obtain ⟨_, _, hset⟩ := toCategoryCol_ok e13
    rw [hset]; exact getCol_setCol_ne _ _ _ _ a17
  have g14 : getCol t14 n = getCol t13 n := by
    obtain ⟨_, _, hset⟩ := toCategoryCol_ok e14
    rw [hset]; exact getCol_setCol_ne _ _ _ _ a18
  have g15 : getCol t15 n = getCol t14 n := by
    obtain ⟨_, _, hset⟩ := toCategoryCol_ok e15
    rw [hset]; exact getCol_setCol_ne _ _ _ _ a19
  have g16 : getCol t16 n = getCol t15 n := by
    rw [ht16]; exact getCol_setCol_ne _ _ _ _ a20
  have g17 : getCol t17 n = getCol t16 n := by
    rw [ht17]; exact getCol_setCol_ne _ _ _ _ a20
  have g18 : getCol out n = getCol t17 n := by
    rw [dropStrict_ok e18]
    exact getCol_dropIgnore_not_mem _ _ _ (by simp [a21, a22, a23, a24])
  rw [g18, g17, g16, g15, g14, g13, g12, g11, g10, g9, g8, g7, g6, g5, g4,
    g3, g2, g1]

theorem fix_dtypes_is_individual {df out : Table} (h : fix_dtypes df = .ok out) :
    ∃ avals, getCol df "application_type" = some avals ∧
      getCol out "is_individual_app" =
        some (avals.map (fun v => Value.bool (v = Value.str "Individual"))) := by
  obtain ⟨t1, t2, t3, t4, t5, t6, t7, t8, t9, t10, t11, t12, t13, t14, t15,
    ev, t16, ev2, iv, t17,
    e1, e2, e3, e4, e5, e6, e7, e8, e9, e10, e11, e12, e13, e14, e15,
    hev, ht16, hev2, hiv, ht17, e18⟩ := fix_dtypes_decomp h
  obtain ⟨avals, hav, hset3⟩ := deriveEq_ok e3
  have hav0 : getCol df "application_type" = some avals := by
    obtain ⟨_, _, hset1⟩ := deriveEq_ok e1
    obtain ⟨_, _, hset2⟩ := deriveEq_ok e2
    rw [hset2, getCol_setCol_ne _ _ _ _ (by decide), hset1,
      getCol_setCol_ne _ _ _ _ (by decide)] at hav
    exact hav
  refine ⟨avals, hav0, ?_⟩
  have g3 : getCol t3 "is_individual_app" =
      some (avals.map (fun v => Value.bool (v = Value.str "Individual"))) := by
    rw [hset3, getCol_setCol_self]
  have g4 : getCol t4 "is_individual_app" = getCol t3 "is_individual_app" := by
    obtain ⟨_, _, hset⟩ := deriveEq_ok e4
    rw [hset]; exact getCol_setCol_ne _ _ _ _ (by decide)
  have g5 : getCol t5 "is_individual_app" = getCol t4 "is_individual_app" := by
    obtain ⟨_, _, _, _, hset⟩ := deriveSliceInt_ok e5
    rw [hset]; exact getCol_setCol_ne _ _ _ _ (by decide)
  have g6 : getCol t6 "is_individual_app" = getCol t5 "is_individual_app" := by
    obtain ⟨_, _, hset⟩ := deriveEq_ok e6
    rw [hset]; exact getCol_setCol_ne _ _ _ _ (by decide)
  have g7 : getCol t7 "is_individual_app" = getCol t6 "is_individual_app" := by
    rw [dropStrict_ok e7]
    exact getCol_dropIgnore_not_mem _ _ _ (by decide)
  have g8 : getCol t8 "is_individual_app" = getCol t7 "is_individual_app" := by
    obtain ⟨_, _, hset⟩ := toDatetimeCol_ok e8
    rw [hset]; exact getCol_setCol_ne _ _ _ _ (by decide)
  have g9 : getCol t9 "is_individual_app" = getCol t8 "is_individual_app" := by
    obtain ⟨_, _, hset⟩ := toDatetimeCol_ok e9
    rw [hset]; exact getCol_setCol_ne _ _ _ _ (by decide)
  have g10 : getCol t10 "is_individual_app" = getCol t9 "is_individual_app" := by
    obtain ⟨_, _, hset⟩ := toCategoryCol_ok e10
    rw [hset]; exact getCol_setCol_ne _ _ _ _ (by decide)
  have g11 : getCol t11 "is_individual_app" = getCol t10 "is_individual_app" := by
    obtain ⟨_, _, hset⟩ := toCategoryCol_ok e11
    rw [hset]; exact getCol_setCol_ne _ _ _ _ (by decide)
  have g12 : getCol t12 "is_individual_app" = getCol t11 "is_individual_app" := by
    obtain ⟨_, _, hset⟩ := toCategoryCol_ok e12
    rw [hset]; exact getCol_setCol_ne _ _ _ _ (by decide)
  have g13 : getCol t13 "is_individual_app" = getCol t12 "is_individual_app" := by
    obtain ⟨_, _, hset⟩ := toCategoryCol_ok e13
    rw [hset]; exact getCol_setCol_ne _ _ _ _ (by decide)
  have g14 : getCol t14 "is_individual_app" = getCol t13 "is_individual_app" := by
    obtain ⟨_, _, hset⟩ := toCategoryCol_ok e14
    rw [hset]; exact getCol_setCol_ne _ _ _ _ (by decide)
  have g15 : getCol t15 "is_individual_app" = getCol t14 "is_individual_app" := by
    obtain ⟨_, _, hset⟩ := toCategoryCol_ok e15
    rw [hset]; exact getCol_setCol_ne _ _ _ _ (by decide)
  have g16 : getCol t16 "is_individual_app" = getCol t15 "is_individual_app" := by
    rw [ht16]; exact getCol_setCol_ne _ _ _ _ (by decide)
  have g17 : getCol t17 "is_individual_app" = getCol t16 "is_individual_app" := by
    rw [ht17]; exact getCol_setCol_ne _ _ _ _ (by decide)
  have g18 : getCol out "is_individual_app" = getCol t17 "is_individual_app" := by
    rw [dropStrict_ok e18]
    exact getCol_dropIgnore_not_mem _ _ _ (by decide)
  rw [g18, g17, g16, g15, g14, g13, g12, g11, g10, g9, g8, g7, g6, g5, g4, g3]

theorem fix_dtypes_emp_length {df out : Table} (h : fix_dtypes df = .ok out) :
    ∃ ev iv, getCol df "emp_length" = some ev ∧
      getCol out "emp_length" = some iv ∧
      iv.map some = ev.map empDtypeMap := by
  obtain ⟨t1, t2, t3, t4, t5, t6, t7, t8, t9, t10, t11, t12, t13, t14, t15,
    ev, t16, ev2, iv, t17,
    e1, e2, e3, e4, e5, e6, e7, e8, e9, e10, e11, e12, e13, e14, e15,
    hev, ht16, hev2, hiv, ht17, e18⟩ := fix_dtypes_decomp h
  have hev0 : getCol df "emp_length" = some ev := by
    obtain ⟨_, _, s1⟩ := deriveEq_ok e1
    obtain ⟨_, _, s2⟩ := deriveEq_ok e2
    obtain ⟨_, _, s3⟩ := deriveEq_ok e3
    obtain ⟨_, _, s4⟩ := deriveEq_ok e4
    obtain ⟨_, _, _, _, s5⟩ := deriveSliceInt_ok e5
    obtain ⟨_, _, s6⟩ := deriveEq_ok e6
    obtain ⟨_, _, s8⟩ := toDatetimeCol_ok e8
    obtain ⟨_, _, s9⟩ := toDatetimeCol_ok e9
    obtain ⟨_, _, s10⟩ := toCategoryCol_ok e10
    obtain ⟨_, _, s11⟩ := toCategoryCol_ok e11
    obtain ⟨_, _, s12⟩ := toCategoryCol_ok e12
    obtain ⟨_, _, s13⟩ := toCategoryCol_ok e13
    obtain ⟨_, _, s14⟩ := toCategoryCol_ok e14
    obtain ⟨_, _, s15⟩ := toCategoryCol_ok e15
    rw [s15, getCol_setCol_ne _ _ _ _ (by decide),
      s14, getCol_setCol_ne _ _ _ _ (by decide),
      s13, getCol_setCol_ne _ _ _ _ (by decide),
      s12, getCol_setCol_ne _ _ _ _ (by decide),
      s11, getCol_setCol_ne _ _ _ _ (by decide),
      s10, getCol_setCol_ne _ _ _ _ (by decide),
      s9, getCol_setCol_ne _ _ _ _ (by decide),
      s8, getCol_setCol_ne _ _ _ _ (by decide),
      dropStrict_ok e7, getCol_dropIgnore_not_mem _ _ _ (by decide),
      s6, getCol_setCol_ne _ _ _ _ (by decide),
      s5, getCol_setCol_ne _ _ _ _ (by decide),
      s4, getCol_setCol_ne _ _ _ _ (by decide),
      s3, getCol_setCol_ne _ _ _ _ (by decide),
      s2, getCol_setCol_ne _ _ _ _ (by decide),
      s1, getCol_setCol_ne _ _ _ _ (by decide)] at hev
    exact hev
  have hev2' : ev2 = ev.map replEmpVal := by
    rw [ht16, getCol_setCol_self] at hev2
    exact (Option.some.injEq _ _ ▸ hev2).symm
  have hout : getCol out "emp_length" = some iv := by
    rw [dropStrict_ok e18, getCol_dropIgnore_not_mem _ _ _ (by decide),
      ht17, getCol_setCol_self]
  refine ⟨ev, iv, hev0, hout, ?_⟩
  have := astypeIntList_ok hiv
  rw [hev2'] at this
  rw [this, List.map_map, List.map_map]
  rfl

theorem fix_dtypes_names {df out : Table} (h : fix_dtypes df = .ok out) :
    ∀ c ∈ out, c.1 ∈ dtypes_touched_names ∨ ∃ c0 ∈ df, c0.1 = c.1 := by
  obtain ⟨t1, t2, t3, t4, t5, t6, t7, t8, t9, t10, t11, t12, t13, t14, t15,
    ev, t16, ev2, iv, t17,
    e1, e2, e3, e4, e5, e6, e7, e8, e9, e10, e11, e12, e13, e14, e15,
    hev, ht16, hev2, hiv, ht17, e18⟩ := fix_dtypes_decomp h
  intro c hc
  rw [dropStrict_ok e18] at hc
  replace hc := (mem_dropIgnore.mp hc).1
  rw [ht17] at hc
  rcases mem_setCol hc with heq | ⟨hc, -⟩
  · exact Or.inl (by rw [heq]; simp [dtypes_touched_names])
  rw [ht16] at hc
  rcases mem_setCol hc with heq | ⟨hc, -⟩
  · exact Or.inl (by rw [heq]; simp [dtypes_touched_names])
  obtain ⟨_, _, s15⟩ := toCategoryCol_ok e15
  rw [s15] at hc
  rcases mem_setCol hc with heq | ⟨hc, -⟩
  · exact Or.inl (by rw [heq]; simp [dtypes_touched_names])
  obtain ⟨_, _, s14⟩ := toCategoryCol_ok e14
  rw [s14] at hc
  rcases mem_setCol hc with heq | ⟨hc, -⟩
  · exact Or.inl (by rw [heq]; simp [dtypes_touched_names])
  obtain ⟨_, _, s13⟩ := toCategoryCol_ok e13
  rw [s13] at hc
  rcases mem_setCol hc with heq | ⟨hc, -⟩
  · exact Or.inl (by rw [heq]; simp [dtypes_touched_names])
  obtain ⟨_, _, s12⟩ := toCategoryCol_ok e12
  rw [s12] at hc
  rcases mem_setCol hc with heq | ⟨hc, -⟩
  · exact Or.inl (by rw [heq]; simp [dtypes_touched_names])
  obtain ⟨_, _, s11⟩ := toCategoryCol_ok e11
  rw [s11] at hc
  rcases mem_setCol hc with heq | ⟨hc, -⟩
  · exact Or.inl (by rw [heq]; simp [dtypes_touched_names])
  obtain ⟨_, _, s10⟩ := toCategoryCol_ok e10
  rw [s10] at hc
  rcases mem_setCol hc with heq | ⟨hc, -⟩
  · exact Or.inl (by rw [heq]; simp [dtypes_touched_names])
  obtain ⟨_, _, s9⟩ := toDatetimeCol_ok e9
  rw [s9] at hc
  rcases mem_setCol hc with heq | ⟨hc, -⟩
  · exact Or.inl (by rw [heq]; simp [dtypes_touched_names])
  obtain ⟨_, _, s8⟩ := toDatetimeCol_ok e8
  rw [s8] at hc
  rcases mem_setCol hc with heq | ⟨hc, -⟩
  · exact Or.inl (by rw [heq]; simp [dtypes_touched_names])
  rw [dropStrict_ok e7] at hc
  replace hc := (mem_dropIgnore.mp hc).1
  obtain ⟨_, _, s6⟩ := deriveEq_ok e6
  rw [s6] at hc
  rcases mem_setCol hc with heq | ⟨hc, -⟩
  · exact Or.inl (by rw [heq]; simp [dtypes_touched_names])
  obtain ⟨_, _, _, _, s5⟩ := deriveSliceInt_ok e5
  rw [s5] at hc
  rcases mem_setCol hc with heq | ⟨hc, -⟩
  · exact Or.inl (by rw [heq]; simp [dtypes_touched_names])
  obtain ⟨_, _, s4⟩ := deriveEq_ok e4
  rw [s4] at hc
  rcases mem_setCol hc with heq | ⟨hc, -⟩
  · exact Or.inl (by rw [heq]; simp [dtypes_touched_names])
  obtain ⟨_, _, s3⟩ := deriveEq_ok e3
  rw [s3] at hc
  rcases mem_setCol hc with heq | ⟨hc, -⟩
  · exact Or.inl (by rw [heq]; simp [dtypes_touched_names])
  obtain ⟨_, _, s2⟩ := deriveEq_ok e2
  rw [s2] at hc
  rcases mem_setCol hc with heq | ⟨hc, -⟩
  · exact Or.inl (by rw [heq]; simp [dtypes_touched_names])
  obtain ⟨_, _, s1⟩ := deriveEq_ok e1
  rw [s1] at hc
  rcases mem_setCol hc with heq | ⟨hc, -⟩
  · exact Or.inl (by rw [heq]; simp [dtypes_touched_names])
  exact Or.inr ⟨c, hc, rfl⟩

theorem fmv_upstream {dict : List DictRow} {df d1 d2 d3 d4 : Table}
    {n : String} {vs : List Value}
    (h1 : dropStrict df all_values_missing = .ok d1)
    (h2 : fillColStrict d1 "emp_length" (Value.str "0 years") = .ok d2)
    (hd3 : d3 = dropIgnore d2 (settlementCols dict))
    (hd4 : d4 = dropIgnore d3 (jointPurgeCols d3))
    (hj : isJointName n = false) (hne : n ≠ "emp_length")
    (hnm : n ∉ all_values_missing)
    (hget : getCol d4 n = some vs) :
    getCol df n = some vs := by
  have hjc : n ∉ jointPurgeCols d3 := by
    intro hmem
    rw [mem_jointPurgeCols hmem] at hj
    exact Bool.true_eq_false.mp hj
  rw [hd4, getCol_dropIgnore_not_mem _ _ _ hjc] at hget
  by_cases hsc : n ∈ settlementCols dict
  · rw [hd3, getCol_dropIgnore_mem _ _ _ hsc] at hget
    cases hget
  · rw [hd3, getCol_dropIgnore_not_mem _ _ _ hsc] at hget
    obtain ⟨ev, _, hd2e⟩ := fillColStrict_ok h2
    rw [hd2e, getCol_setCol_ne _ _ _ _ hne] at hget
    rw [dropStrict_ok h1, getCol_dropIgnore_not_mem _ _ _ hnm] at hget
    exact hget

theorem fmv_downstream {d5 d6 d7 d8 d9 d10 d11 out : Table}
    {cr : List String} {n : String}
    (h6 : deriveFlag d5 "has_public_record" "mths_since_last_record" = .ok d6)
    (h7 : deriveFlag d6 "has_recent_bc_dlq" "mths_since_recent_bc_dlq" = .ok d7)
    (h8 : deriveFlag d7 "has_major_derog" "mths_since_last_major_derog" = .ok d8)
    (h9 : deriveFlag d8 "has_recent_revol_delinq" "mths_since_recent_revol_delinq" = .ok d9)
    (h10 : deriveFlag d9 "has_recent_delinq" "mths_since_last_delinq" = .ok d10)
    (h11 : fillZeroAll d10 (colsToSetZero cr) = .ok d11)
    (h12 : dropStrict d11 cols_to_drop_all = .ok out)
    (hf1 : n ≠ "has_public_record") (hf2 : n ≠ "has_recent_bc_dlq")
    (hf3 : n ≠ "has_major_derog") (hf4 : n ≠ "has_recent_revol_delinq")
    (hf5 : n ≠ "has_recent_delinq")
    (hnum : startsWithStr n "num_" = false) (hutil : containsSub n "_util" = false)
    (hfix : n ∉ flag_cols) (hlow : n ∉ low_freq_cols) (hmo : n ∉ mo_sin_cols)
    (hdrop : n ∉ cols_to_drop_all) :
    getCol out n = getCol d5 n := by
  have hctz : n ∉ colsToSetZero cr := by
    intro hmem
    rcases mem_colsToSetZero hmem with h | h | h | h | h
    · rw [hnum] at h; exact Bool.false_ne_true h
    · rw [hutil] at h; exact Bool.false_ne_true h
    · exact hfix h
    · exact hlow h
    · exact hmo h
  have g6 : getCol d6 n = getCol d5 n := by
    obtain ⟨_, _, hset⟩ := deriveFlag_ok h6
    rw [hset]; exact getCol_setCol_ne _ _ _ _ hf1
  have g7 : getCol d7 n = getCol d6 n := by
    obtain ⟨_, _, hset⟩ := deriveFlag_ok h7
    rw [hset]; exact getCol_setCol_ne _ _ _ _ hf2
  have g8 : getCol d8 n = getCol d7 n := by
    obtain ⟨_, _, hset⟩ := deriveFlag_ok h8
    rw [hset]; exact getCol_setCol_ne _ _ _ _ hf3
  have g9 : getCol d9 n = getCol d8 n := by
    obtain ⟨_, _, hset⟩ := deriveFlag_ok h9
    rw [hset]; exact getCol_setCol_ne _ _ _ _ hf4
  have g10 : getCol d10 n = getCol d9 n := by
    obtain ⟨_, _, hset⟩ := deriveFlag_ok h10
    rw [hset]; exact getCol_setCol_ne _ _ _ _ hf5
  have g11 : getCol d11 n = getCol d10 n := by
    obtain ⟨-, hd11⟩ := fillZeroAll_ok h11
    rw [hd11, getCol_mapValues d10 (fun nm vals =>
      if (colsToSetZero cr).contains nm = true then fillnaList vals (Value.int 0)
      else vals) n]
    rw [show (colsToSetZero cr).contains n = false from by simpa using hctz]
    cases getCol d10 n <;> simp
  have g12 : getCol out n = getCol d11 n := by
    rw [dropStrict_ok h12]
    exact getCol_dropIgnore_not_mem _ _ _ hdrop
  rw [g12, g11, g10, g9, g8, g7, g6]

theorem fmv_tail {d10 d11 out : Table} {cr : List String} {n : String}
    (h11 : fillZeroAll d10 (colsToSetZero cr) = .ok d11)
    (h12 : dropStrict d11 cols_to_drop_all = .ok out)
    (hnum : startsWithStr n "num_" = false) (hutil : containsSub n "_util" = false)
    (hfix : n ∉ flag_cols) (hlow : n ∉ low_freq_cols) (hmo : n ∉ mo_sin_cols)
    (hdrop : n ∉ cols_to_drop_all) :
    getCol out n = getCol d10 n := by
  have hctz : n ∉ colsToSetZero cr := by
    intro hmem
    rcases mem_colsToSetZero hmem with h | h | h | h | h
    · rw [hnum] at h; exact Bool.false_ne_true h
    · rw [hutil] at h; exact Bool.false_ne_true h
    · exact hfix h
    · exact hlow h
    · exact hmo h
  have g11 : getCol d11 n = getCol d10 n := by
    obtain ⟨-, hd11⟩ := fillZeroAll_ok h11
    rw [hd11, getCol_mapValues d10 (fun nm vals =>
      if (colsToSetZero cr).contains nm = true then fillnaList vals (Value.int 0)
      else vals) n]
    rw [show (colsToSetZero cr).contains n = false from by simpa using hctz]
    cases getCol d10 n <;> simp
  rw [dropStrict_ok h12, getCol_dropIgnore_not_mem _ _ _ hdrop, g11]

theorem fmv_no_joint {dict : List DictRow} {df out : Table}
    (h : fix_missing_values dict df = .ok out) :
    ∀ c ∈ out, isJointName c.1 = false := by
  obtain ⟨d1, d2, d3, d4, avals, d5, d6, d7, d8, d9, d10, d11,
    h1, h2, h3s, hd3, hd4, hav, hd5, h6, h7, h8, h9, h10, h11, h12⟩ :=
    fix_missing_values_decomp h
  intro c hc
  rw [dropStrict_ok h12] at hc
  replace hc := (mem_dropIgnore.mp hc).1
  obtain ⟨-, hd11⟩ := fillZeroAll_ok h11
  rw [hd11, List.mem_map] at hc
  obtain ⟨c10, hc10, hceq⟩ := hc
  have hname : c.1 = c10.1 := by rw [← hceq]
  rw [hname]
  obtain ⟨s5, -, hs6⟩ := deriveFlag_ok h6
  obtain ⟨s6, -, hs7⟩ := deriveFlag_ok h7
  obtain ⟨s7, -, hs8⟩ := deriveFlag_ok h8
  obtain ⟨s8, -, hs9⟩ := deriveFlag_ok h9
  obtain ⟨s9, -, hs10⟩ := deriveFlag_ok h10
  rw [hs10] at hc10
  rcases mem_setCol hc10 with heq | ⟨hc10, -⟩
  · rw [heq]; exact (by decide : isJointName "has_recent_delinq" = false)
  rw [hs9] at hc10
  rcases mem_setCol hc10 with heq | ⟨hc10, -⟩
  · rw [heq]; exact (by decide : isJointName "has_recent_revol_delinq" = false)
  rw [hs8] at hc10
  rcases mem_setCol hc10 with heq | ⟨hc10, -⟩
  · rw [heq]; exact (by decide : isJointName "has_major_derog" = false)
  rw [hs7] at hc10
  rcases mem_setCol hc10 with heq | ⟨hc10, -⟩
  · rw [heq]; exact (by decide : isJointName "has_recent_bc_dlq" = false)
  rw [hs6] at hc10
  rcases mem_setCol hc10 with heq | ⟨hc10, -⟩
  · rw [heq]; exact (by decide : isJointName "has_public_record" = false)
  rw [hd5, List.mem_map] at hc10
  obtain ⟨c4, hc4, hc4eq⟩ := hc10
  have hname4 : c10.1 = c4.1 := by rw [← hc4eq]
  rw [hname4]
  rw [hd4] at hc4
  obtain ⟨hc4d3, hnc⟩ := mem_dropIgnore.mp hc4
  by_contra hj
  rw [Bool.not_eq_false] at hj
  have : c4.1 ∈ jointPurgeCols d3 := jointPurgeCols_complete hc4d3 hj
  rw [show (jointPurgeCols d3).contains c4.1 = true from by simpa using this] at hnc
  exact Bool.true_eq_false.mp hnc

/-- C1: for every input table conforming to the expected schema (each
column with a missing value is covered by the resolution policy), the
table returned by `fix_missing_values` contains no missing values in any
retained column. -/
theorem C1_resolver_no_missing {dict : List DictRow} {df out : Table}
    (hschema : ∀ c ∈ df, c.2.any Value.isNa = true → handledByPolicy dict c.1 = true)
    (h : fix_missing_values dict df = .ok out) :
    hasNoNa out = true := by
  obtain ⟨d1, d2, d3, d4, avals, d5, d6, d7, d8, d9, d10, d11,
    h1, h2, h3s, hd3, hd4, hav, hd5, h6, h7, h8, h9, h10, h11, h12⟩ :=
    fix_missing_values_decomp h
  rw [hasNoNa, List.all_eq_true]
  intro c hc
  rw [List.all_eq_true]
  intro v hv
  by_contra hna'
  rw [Bool.not_eq_true] at hna'
  have hna : v.isNa = true := by simpa using hna'
  clear hna'
  -- through the final strict drop
  rw [dropStrict_ok h12] at hc
  obtain ⟨hc, hctd⟩ := mem_dropIgnore.mp hc
  -- through the bulk zero-fill
  obtain ⟨-, hd11⟩ := fillZeroAll_ok h11
  rw [hd11, List.mem_map] at hc
  obtain ⟨c10, hc10, hceq⟩ := hc
  have hname : c.1 = c10.1 := by rw [← hceq]
  cases hz : (colsToSetZero (colsWithNa d5)).contains c10.1 with
  | true =>
    have hz' : c10.1 ∈ colsToSetZero (colsWithNa d5) := by simpa using hz
    have hv2 : v ∈ fillnaList c10.2 (Value.int 0) := by
      rw [← hceq] at hv
      simpa [hz'] using hv
    rw [fillnaList_noNa (by decide) v hv2] at hna
    exact Bool.false_ne_true hna
  | false =>
  have hz' : c10.1 ∉ colsToSetZero (colsWithNa d5) := by simpa using hz
  have hv10 : v ∈ c10.2 := by
    rw [← hceq] at hv
    simpa [hz'] using hv
  clear hceq hv
  -- back through the five presence-flag assignments
  obtain ⟨s5, -, hs6⟩ := deriveFlag_ok h6
  obtain ⟨s6, -, hs7⟩ := deriveFlag_ok h7
  obtain ⟨s7, -, hs8⟩ := deriveFlag_ok h8
  obtain ⟨s8, -, hs9⟩ := deriveFlag_ok h9
  obtain ⟨s9, -, hs10⟩ := deriveFlag_ok h10
  rw [hs10] at hc10
  rcases mem_setCol hc10 with heq | ⟨hc10, -⟩
  · rw [heq] at hv10
    obtain ⟨w, -, hw⟩ := List.mem_map.mp hv10
    rw [← hw] at hna
    exact absurd hna (by simp [Value.isNa])
  rw [hs9] at hc10
  rcases mem_setCol hc10 with heq | ⟨hc10, -⟩
  · rw [heq] at hv10
    obtain ⟨w, -, hw⟩ := List.mem_map.mp hv10
    rw [← hw] at hna
    exact absurd hna (by simp [Value.isNa])
  rw [hs8] at hc10
  rcases mem_setCol hc10 with heq | ⟨hc10, -⟩
  · rw [heq] at hv10
    obtain ⟨w, -, hw⟩ := List.mem_map.mp hv10
    rw [← hw] at hna
    exact absurd hna (by simp [Value.isNa])
  rw [hs7] at hc10
  rcases mem_setCol hc10 with heq | ⟨hc10, -⟩
  · rw [heq] at hv10
    obtain ⟨w, -, hw⟩ := List.mem_map.mp hv10
    rw [← hw] at hna
    exact absurd hna (by simp [Value.isNa])
  rw [hs6] at hc10
  rcases mem_setCol hc10 with heq | ⟨hc10, -⟩
  · rw [heq] at hv10
    obtain ⟨w, -, hw⟩ := List.mem_map.mp hv10
    rw [← hw] at hna
    exact absurd hna (by simp [Value.isNa])
  -- back through the row filter
  rw [hd5, List.mem_map] at hc10
  obtain ⟨c4, hc4, heq4⟩ := hc10
  have hname4 : c10.1 = c4.1 := by rw [← heq4]
  have hvmask : v ∈ applyMask (avals.map isIndividual) c4.2 := by
    rw [← heq4] at hv10
    exact hv10
  have hv4 : v ∈ c4.2 := mem_applyMask hvmask
  have hc5 : (c4.1, applyMask (avals.map isIndividual) c4.2) ∈ d5 := by
    rw [hd5]
    exact List.mem_map_of_mem _ hc4
  -- back through the joint purge
  rw [hd4] at hc4
  obtain ⟨hc4, hjc⟩ := mem_dropIgnore.mp hc4
  have hjoint : isJointName c4.1 = false := by
    by_contra hj
    rw [Bool.not_eq_false] at hj
    have := jointPurgeCols_complete hc4 hj
    rw [show (jointPurgeCols d3).contains c4.1 = true from by simpa using this] at hjc
    exact Bool.true_eq_false.mp hjc
  -- back through the dynamic settlement drop
  rw [hd3] at hc4
  obtain ⟨hc4, hsc⟩ := mem_dropIgnore.mp hc4
  -- back through the employment-length fill
  obtain ⟨ev, -, hd2⟩ := fillColStrict_ok h2
  rw [hd2] at hc4
  rcases mem_setCol hc4 with heq | ⟨hc4, hemp⟩
  · rw [heq] at hv4
    rw [fillnaList_noNa (by decide) v hv4] at hna
    exact Bool.false_ne_true hna
  -- back through the empty-identifier drop
  rw [dropStrict_ok h1] at hc4
  obtain ⟨hc4, havm⟩ := mem_dropIgnore.mp hc4
  -- the original column has a missing value, so the policy covers it
  have hcov := hschema c4 hc4 (List.any_eq_true.mpr ⟨v, hv4, hna⟩)
  rw [handledByPolicy] at hcov
  simp only [Bool.or_eq_true, decide_eq_true_eq] at hcov
  have hcr : c4.1 ∈ colsWithNa d5 :=
    @mem_colsWithNa d5 (c4.1, applyMask (avals.map isIndividual) c4.2) hc5
      (List.any_eq_true.mpr ⟨v, hvmask, hna⟩)
  have hzf : c4.1 ∉ colsToSetZero (colsWithNa d5) := by
    intro hmem
    rw [hname4] at hz
    rw [show (colsToSetZero (colsWithNa d5)).contains c4.1 = true from by
      simpa using hmem] at hz
    exact Bool.true_eq_false.mp hz
  rcases hcov with ((((((((hx | hx) | hx) | hx) | hx) | hx) | hx) | hx) | hx) | hx
  · rw [show all_values_missing.contains c4.1 = true from by simpa using hx] at havm
    exact Bool.true_eq_false.mp havm
  · exact hemp hx
  · rw [show (settlementCols dict).contains c4.1 = true from by simpa using hx] at hsc
    exact Bool.true_eq_false.mp hsc
  · rw [hx] at hjoint; exact Bool.true_eq_false.mp hjoint
  · exact hzf (mem_colsToSetZero_of_num hcr hx)
  · exact hzf (mem_colsToSetZero_of_util hcr hx)
  · exact hzf (mem_colsToSetZero_of_fixed (Or.inl (by simpa using hx)))
  · exact hzf (mem_colsToSetZero_of_fixed (Or.inr (Or.inl (by simpa using hx))))
  · exact hzf (mem_colsToSetZero_of_fixed (Or.inr (Or.inr (by simpa using hx))))
  · rw [hname, hname4] at hctd
    rw [show cols_to_drop_all.contains c4.1 = true from by simpa using hx] at hctd
    exact Bool.true_eq_false.mp hctd

theorem fmv_application_type {dict : List DictRow} {df out : Table}
    (h : fix_missing_values dict df = .ok out) :
    ∃ avals, getCol df "application_type" = some avals ∧
      getCol out "application_type" =
        some (applyMask (avals.map isIndividual) avals) := by
  obtain ⟨d1, d2, d3, d4, avals, d5, d6, d7, d8, d9, d10, d11,
    h1, h2, h3s, hd3, hd4, hav, hd5, h6, h7, h8, h9, h10, h11, h12⟩ :=
    fix_missing_values_decomp h
  have hav0 : getCol df "application_type" = some avals := by
    exact fmv_upstream h1 h2 hd3 hd4 (by decide) (by decide) (by decide) hav
  refine ⟨avals, hav0, ?_⟩
  have g5 : getCol d5 "application_type" =
      some (applyMask (avals.map isIndividual) avals) := by
    rw [hd5, getCol_mapValues d4
      (fun _ vals => applyMask (avals.map isIndividual) vals) _, hav]
    rfl
  rw [fmv_downstream h6 h7 h8 h9 h10 h11 h12 (by decide) (by decide) (by decide)
    (by decide) (by decide) (by decide) (by decide) (by decide) (by decide)
    (by decide) (by decide), g5]

theorem fmv_emp_length {dict : List DictRow} {df out : Table} {vals : List Value}
    (h : fix_missing_values dict df = .ok out)
    (hv : getCol df "emp_length" = some vals) :
    ∃ mask, getCol out "emp_length" =
      some (applyMask mask (fillnaList vals (Value.str "0 years"))) := by
  obtain ⟨d1, d2, d3, d4, avals, d5, d6, d7, d8, d9, d10, d11,
    h1, h2, h3s, hd3, hd4, hav, hd5, h6, h7, h8, h9, h10, h11, h12⟩ :=
    fix_missing_values_decomp h
  obtain ⟨ev, hev, hd2⟩ := fillColStrict_ok h2
  have hd1e : getCol d1 "emp_length" = some vals := by
    rw [dropStrict_ok h1, getCol_dropIgnore_not_mem _ _ _ (by decide)]
    exact hv
  have hev2 : ev = vals := by
    rw [hev] at hd1e
    injection hd1e
  rw [hev2] at hd2
  have g2 : getCol d2 "emp_length" =
      some (fillnaList vals (Value.str "0 years")) := by
    rw [hd2, getCol_setCol_self]
  have hemp_notjoint : "emp_length" ∉ jointPurgeCols d3 := by
    intro hmem
    have := mem_jointPurgeCols hmem
    exact absurd this (by decide)
  have flagchain : ∀ w, getCol d5 "emp_length" = w → getCol d10 "emp_length" = w := by
    intro w g5
    obtain ⟨_, _, hs6⟩ := deriveFlag_ok h6
    obtain ⟨_, _, hs7⟩ := deriveFlag_ok h7
    obtain ⟨_, _, hs8⟩ := deriveFlag_ok h8
    obtain ⟨_, _, hs9⟩ := deriveFlag_ok h9
    obtain ⟨_, _, hs10⟩ := deriveFlag_ok h10
    rw [hs10, getCol_setCol_ne _ _ _ _ (by decide),
      hs9, getCol_setCol_ne _ _ _ _ (by decide),
      hs8, getCol_setCol_ne _ _ _ _ (by decide),
      hs7, getCol_setCol_ne _ _ _ _ (by decide),
      hs6, getCol_setCol_ne _ _ _ _ (by decide), g5]
  have hemp_ctz : "emp_length" ∈ colsToSetZero (colsWithNa d5) :=
    mem_colsToSetZero_of_fixed (Or.inr (Or.inl (by decide)))
  by_cases hsc : "emp_length" ∈ settlementCols dict
  · -- then the column would be dropped and the bulk fill would fail
    exfalso
    have g3 : getCol d3 "emp_length" = none := by
      rw [hd3]
      exact getCol_dropIgnore_mem _ _ _ hsc
    have g4 : getCol d4 "emp_length" = none := by
      rw [hd4, getCol_dropIgnore_not_mem _ _ _ hemp_notjoint]
      exact g3
    have g5 : getCol d5 "emp_length" = none := by
      rw [hd5, getCol_mapValues d4
        (fun _ ws => applyMask (avals.map isIndividual) ws) _, g4]
      rfl
    have g10 := flagchain none g5
    obtain ⟨hpresent, -⟩ := fillZeroAll_ok h11
    have := hpresent "emp_length" hemp_ctz
    rw [g10] at this
    simp at this
  · refine ⟨avals.map isIndividual, ?_⟩
    have g3 : getCol d3 "emp_length" =
        some (fillnaList vals (Value.str "0 years")) := by
      rw [hd3, getCol_dropIgnore_not_mem _ _ _ hsc]
      exact g2
    have g4 : getCol d4 "emp_length" =
        some (fillnaList vals (Value.str "0 years")) := by
      rw [hd4, getCol_dropIgnore_not_mem _ _ _ hemp_notjoint]
      exact g3
    have g5 : getCol d5 "emp_length" =
        some (applyMask (avals.map isIndividual)
          (fillnaList vals (Value.str "0 years"))) := by
      rw [hd5, getCol_mapValues d4
        (fun _ ws => applyMask (avals.map isIndividual) ws) _, g4]
      rfl
    have g10 := flagchain _ g5
    have hnoNa : ∀ w ∈ applyMask (avals.map isIndividual)
        (fillnaList vals (Value.str "0 years")), w.isNa = false := by
      intro w hw
      exact fillnaList_noNa (by decide) w (mem_applyMask hw)
    have g11 : getCol d11 "emp_length" =
        some (applyMask (avals.map isIndividual)
          (fillnaList vals (Value.str "0 years"))) := by
      obtain ⟨-, hd11⟩ := fillZeroAll_ok h11
      rw [hd11, getCol_mapValues d10 (fun nm ws =>
        if (colsToSetZero (colsWithNa d5)).contains nm = true then
          fillnaList ws (Value.int 0) else ws) _, g10]
      rw [show (colsToSetZero (colsWithNa d5)).contains "emp_length" = true from by
        simpa using hemp_ctz]
      simp [fillnaList_eq_self hnoNa]
    rw [dropStrict_ok h12, getCol_dropIgnore_not_mem _ _ _ (by decide), g11]

theorem fmv_src_to_d5 {dict : List DictRow} {df d1 d2 d3 d4 : Table}
    {avals : List Value} {d5 : Table} {n : String} {sv : List Value}
    (h1 : dropStrict df all_values_missing = .ok d1)
    (h2 : fillColStrict d1 "emp_length" (Value.str "0 years") = .ok d2)
    (hd3 : d3 = dropIgnore d2 (settlementCols dict))
    (hd4 : d4 = dropIgnore d3 (jointPurgeCols d3))
    (hd5 : d5 = d4.map (fun c => (c.1, applyMask (avals.map isIndividual) c.2)))
    (hj : isJointName n = false) (hne : n ≠ "emp_length")
    (hnm : n ∉ all_values_missing)
    (hget : getCol d5 n = some sv) :
    ∃ u, getCol df n = some u ∧ sv = applyMask (avals.map isIndividual) u := by
  rw [hd5, getCol_mapValues d4
    (fun _ ws => applyMask (avals.map isIndividual) ws) _] at hget
  cases hu : getCol d4 n with
  | none => rw [hu] at hget; simp at hget
  | some u =>
    rw [hu] at hget
    have hsv : applyMask (avals.map isIndividual) u = sv := by
      have := hget
      simpa using this
    refine ⟨u, ?_, hsv.symm⟩
    exact fmv_upstream h1 h2 hd3 hd4 hj hne hnm hu

/-- C2: each derived presence flag equals NOT-missing of its source
column's original, pre-fill value, for every row retained by
`fix_missing_values` (the rows whose application type is "Individual");
the source columns are never filled before the flags are derived. -/
theorem C2_presence_flags {dict : List DictRow} {df out : Table}
    {appvals s1 s2 s3 s4 s5 : List Value}
    (h : fix_missing_values dict df = .ok out)
    (happ : getCol df "application_type" = some appvals)
    (hs1 : getCol df "mths_since_last_record" = some s1)
    (hs2 : getCol df "mths_since_recent_bc_dlq" = some s2)
    (hs3 : getCol df "mths_since_last_major_derog" = some s3)
    (hs4 : getCol df "mths_since_recent_revol_delinq" = some s4)
    (hs5 : getCol df "mths_since_last_delinq" = some s5) :
    getCol out "has_public_record" =
      some (applyMask (appvals.map isIndividual)
        (s1.map (fun v => Value.bool (!v.isNa)))) ∧
    getCol out "has_recent_bc_dlq" =
      some (applyMask (appvals.map isIndividual)
        (s2.map (fun v => Value.bool (!v.isNa)))) ∧
    getCol out "has_major_derog" =
      some (applyMask (appvals.map isIndividual)
        (s3.map (fun v => Value.bool (!v.isNa)))) ∧
    getCol out "has_recent_revol_delinq" =
      some (applyMask (appvals.map isIndividual)
        (s4.map (fun v => Value.bool (!v.isNa)))) ∧
    getCol out "has_recent_delinq" =
      some (applyMask (appvals.map isIndividual)
        (s5.map (fun v => Value.bool (!v.isNa)))) := by
  obtain ⟨d1, d2, d3, d4, avals, d5, d6, d7, d8, d9, d10, d11,
    h1, h2, h3s, hd3, hd4, hav, hd5, h6, h7, h8, h9, h10, h11, h12⟩ :=
    fix_missing_values_decomp h
  have havals : avals = appvals := by
    have hup : getCol df "application_type" = some avals :=
      fmv_upstream h1 h2 hd3 hd4 (by decide) (by decide) (by decide) hav
    rw [happ] at hup
    injection hup with he
    exact he.symm
  subst havals
  obtain ⟨sv1, hg1, hset6⟩ := deriveFlag_ok h6
  obtain ⟨sv2, hg2, hset7⟩ := deriveFlag_ok h7
  obtain ⟨sv3, hg3, hset8⟩ := deriveFlag_ok h8
  obtain ⟨sv4, hg4, hset9⟩ := deriveFlag_ok h9
  obtain ⟨sv5, hg5, hset10⟩ := deriveFlag_ok h10
  -- pull every flag source back to the post-filter table d5
  rw [hset6, getCol_setCol_ne _ _ _ _ (by decide)] at hg2
  rw [hset7, getCol_setCol_ne _ _ _ _ (by decide),
    hset6, getCol_setCol_ne _ _ _ _ (by decide)] at hg3
  rw [hset8, getCol_setCol_ne _ _ _ _ (by decide),
    hset7, getCol_setCol_ne _ _ _ _ (by decide),
    hset6, getCol_setCol_ne _ _ _ _ (by decide)] at hg4
  rw [hset9, getCol_setCol_ne _ _ _ _ (by decide),
    hset8, getCol_setCol_ne _ _ _ _ (by decide),
    hset7, getCol_setCol_ne _ _ _ _ (by decide),
    hset6, getCol_setCol_ne _ _ _ _ (by decide)] at hg5
  -- relate each source to its original column
  obtain ⟨u1, hu1, hv1⟩ := fmv_src_to_d5 h1 h2 hd3 hd4 hd5
    (by decide) (by decide) (by decide) hg1
  obtain ⟨u2, hu2, hv2⟩ := fmv_src_to_d5 h1 h2 hd3 hd4 hd5
    (by decide) (by decide) (by decide) hg2
  obtain ⟨u3, hu3, hv3⟩ := fmv_src_to_d5 h1 h2 hd3 hd4 hd5
    (by decide) (by decide) (by decide) hg3
  obtain ⟨u4, hu4, hv4⟩ := fmv_src_to_d5 h1 h2 hd3 hd4 hd5
    (by decide) (by decide) (by decide) hg4
  obtain ⟨u5, hu5, hv5⟩ := fmv_src_to_d5 h1 h2 hd3 hd4 hd5
    (by decide) (by decide) (by decide) hg5
  rw [hs1] at hu1; rw [hs2] at hu2; rw [hs3] at hu3
  rw [hs4] at hu4; rw [hs5] at hu5
  have hq1 : u1 = s1 := by injection hu1 with he; exact he.symm
  have hq2 : u2 = s2 := by injection hu2 with he; exact he.symm
  have hq3 : u3 = s3 := by injection hu3 with he; exact he.symm
  have hq4 : u4 = s4 := by injection hu4 with he; exact he.symm
  have hq5 : u5 = s5 := by injection hu5 with he; exact he.symm
  subst hq1; subst hq2; subst hq3; subst hq4; subst hq5
  subst hv1; subst hv2; subst hv3; subst hv4; subst hv5
  -- carry every flag forward to the output table
  refine ⟨?_, ?_, ?_, ?_, ?_⟩
  · rw [fmv_tail h11 h12 (by decide) (by decide) (by decide) (by decide)
      (by decide) (by decide),
      hset10, getCol_setCol_ne _ _ _ _ (by decide),
      hset9, getCol_setCol_ne _ _ _ _ (by decide),
      hset8, getCol_setCol_ne _ _ _ _ (by decide),
      hset7, getCol_setCol_ne _ _ _ _ (by decide),
      hset6, getCol_setCol_self, applyMask_map]
  · rw [fmv_tail h11 h12 (by decide) (by decide) (by decide) (by decide)
      (by decide) (by decide),
      hset10, getCol_setCol_ne _ _ _ _ (by decide),
      hset9, getCol_setCol_ne _ _ _ _ (by decide),
      hset8, getCol_setCol_ne _ _ _ _ (by decide),
      hset7, getCol_setCol_self, applyMask_map]
  · rw [fmv_tail h11 h12 (by decide) (by decide) (by decide) (by decide)
      (by decide) (by decide),
      hset10, getCol_setCol_ne _ _ _ _ (by decide),
      hset9, getCol_setCol_ne _ _ _ _ (by decide),
      hset8, getCol_setCol_self, applyMask_map]
  · rw [fmv_tail h11 h12 (by decide) (by decide) (by decide) (by decide)
      (by decide) (by decide),
      hset10, getCol_setCol_ne _ _ _ _ (by decide),
      hset9, getCol_setCol_self, applyMask_map]
  · rw [fmv_tail h11 h12 (by decide) (by decide) (by decide) (by decide)
      (by decide) (by decide),
      hset10, getCol_setCol_self, applyMask_map]

/-- C10: the five presence-flag source columns are absent from the output
of `fix_missing_values` (the last strict drop removes them outright). -/
theorem C10_flag_sources_dropped {dict : List DictRow} {df out : Table}
    (h : fix_missing_values dict df = .ok out) :
    getCol out "mths_since_last_record" = none ∧
    getCol out "mths_since_recent_bc_dlq" = none ∧
    getCol out "mths_since_last_major_derog" = none ∧
    getCol out "mths_since_recent_revol_delinq" = none ∧
    getCol out "mths_since_last_delinq" = none := by
  obtain ⟨d1, d2, d3, d4, avals, d5, d6, d7, d8, d9, d10, d11,
    h1, h2, h3s, hd3, hd4, hav, hd5, h6, h7, h8, h9, h10, h11, h12⟩ :=
    fix_missing_values_decomp h
  rw [dropStrict_ok h12]
  exact ⟨getCol_dropIgnore_mem _ _ _ (by decide),
    getCol_dropIgnore_mem _ _ _ (by decide),
    getCol_dropIgnore_mem _ _ _ (by decide),
    getCol_dropIgnore_mem _ _ _ (by decide),
    getCol_dropIgnore_mem _ _ _ (by decide)⟩

/-- C4: `add_target_variable` drops `loan_status`, keeps exactly the rows
whose status is in one of the two allow-lists, and the `target` column of
the result holds, row by row, whether the retained status was in the
defaulted set. -/
theorem C4_add_target {df out : Table} {status : List Value}
    (hs : getCol df "loan_status" = some status)
    (h : add_target_variable df = .ok out) :
    getCol out "loan_status" = none ∧
    getCol out "target" = some ((status.filter (isinStr target_values)).map
      (fun v => Value.bool (isinStr default_client_values v))) := by
  unfold add_target_variable at h
  rw [hs] at h
  dsimp only at h
  obtain ⟨d2, hfr, hdrop⟩ := exceptBind_ok h
  obtain ⟨avals, hg, hd2⟩ := filterRows_ok hfr
  rw [getCol_setCol_ne _ _ _ _ (by decide), hs] at hg
  have havals : status = avals := by injection hg
  subst havals
  rw [dropStrict_ok hdrop]
  constructor
  · exact getCol_dropIgnore_mem _ _ _ (by decide)
  · rw [getCol_dropIgnore_not_mem _ _ _ (by decide), hd2,
      getCol_mapValues
        (setCol df "target"
          (status.map (fun v => Value.bool (isinStr default_client_values v))))
        (fun _ ws => applyMask (status.map (isinStr target_values)) ws) _,
      getCol_setCol_self]
    show some (applyMask (status.map (isinStr target_values))
      (status.map (fun v => Value.bool (isinStr default_client_values v)))) = _
    rw [applyMask_filter]

/-- C6 (refuting evaluation): when derived hardship/settlement names are
absent from the live table, the dynamic drop in `fix_missing_values`
fails instead of treating them as a no-op.  `drop(columns=...)` exists
only from pandas 0.21.0 on, where a missing label raises KeyError; the
source's `except ValueError` clause never matches that, so the KeyError
propagates uncaught and the stage aborts. -/
theorem C6_dynamic_drop_keyerror :
    settlementCols exDict = ["hardship_flag", "settlement_status"] ∧
    getCol c6Table "hardship_flag" = none ∧
    getCol c6Table "settlement_status" = none ∧
    settlementDrop c6Table (settlementCols exDict) =
      .error (PyErr.keyError "not found in axis") ∧
    fix_missing_values exDict c6Table =
      .error (PyErr.keyError "not found in axis") := by
  exact ⟨rfl, rfl, rfl, rfl, rfl⟩

/-- C7: none of the fixed leakage columns survives into the output of
`clean_dataset` whenever the pipeline succeeds. -/
theorem C7_no_leakage_columns {dict : List DictRow} {df out : Table}
    (h : clean_dataset dict df = .ok out) :
    ∀ n ∈ future_cols, getCol out n = none := by
  obtain ⟨d1, mid, mid2, h1, h2, h3, h4⟩ := clean_dataset_decomp h
  intro n hn
  have hmid2 : getCol mid2 n = none := by
    unfold remove_future_columns at h3
    rw [dropStrict_ok h3]
    exact getCol_dropIgnore_mem _ _ _ hn
  have hnt : n ∉ dtypes_touched_names := by
    fin_cases hn <;> decide
  rw [fix_dtypes_preserves h4 hnt, hmid2]

/-- C8: no joint-application data survives `clean_dataset`: every column
of the final table has a name free of the "joint" and "sec_app"
substrings, and after the missing-value stage (which is the last stage
that removes or keeps rows) every remaining row has application type
"Individual". -/
theorem C8_joint_purge {dict : List DictRow} {df out : Table}
    (h : clean_dataset dict df = .ok out) :
    (∀ c ∈ out, isJointName c.1 = false) ∧
    (∀ d1 mid, add_target_variable df = .ok d1 →
      fix_missing_values dict d1 = .ok mid →
      ∀ avals, getCol mid "application_type" = some avals →
        ∀ v ∈ avals, v = Value.str "Individual") := by
  obtain ⟨d1, mid, mid2, h1, h2, h3, h4⟩ := clean_dataset_decomp h
  constructor
  · intro c hc
    rcases fix_dtypes_names h4 c hc with hmem | ⟨c0, hc0, hc0eq⟩
    · exact (by decide : ∀ m ∈ dtypes_touched_names, isJointName m = false) _ hmem
    · unfold remove_future_columns at h3
      rw [dropStrict_ok h3] at hc0
      have := fmv_no_joint h2 c0 (mem_dropIgnore.mp hc0).1
      rw [← hc0eq]
      exact this
  · intro d1x midx h1x h2x avals hget v hv
    have hd1 : d1 = d1x := by
      have he := h1.symm.trans h1x
      injection he
    subst hd1
    have hmid : mid = midx := by
      have he := h2.symm.trans h2x
      injection he
    subst hmid
    obtain ⟨appvals, happ, hout⟩ := fmv_application_type h2
    rw [hout] at hget
    have havals : applyMask (appvals.map isIndividual) appvals = avals := by
      injection hget
    rw [← havals] at hv
    have := applyMask_selfPred hv
    exact of_decide_eq_true this

/-- C9: the derived `is_individual_app` column of a successful
`clean_dataset` run is constant True: the flag is computed only after all
non-Individual rows were removed by the missing-value stage. -/
theorem C9_is_individual_app_true {dict : List DictRow} {df out : Table}
    (h : clean_dataset dict df = .ok out) :
    ∃ vals, getCol out "is_individual_app" = some vals ∧
      vals.all (fun v => v = Value.bool true) = true := by
  obtain ⟨d1, mid, mid2, h1, h2, h3, h4⟩ := clean_dataset_decomp h
  obtain ⟨appvals, happ, hmid⟩ := fmv_application_type h2
  have hmid2 : getCol mid2 "application_type" = getCol mid "application_type" := by
    unfold remove_future_columns at h3
    rw [dropStrict_ok h3]
    exact getCol_dropIgnore_not_mem _ _ _ (by decide)
  obtain ⟨avals2, hav2, hout⟩ := fix_dtypes_is_individual h4
  rw [hmid2, hmid] at hav2
  have havals2 : applyMask (appvals.map isIndividual) appvals = avals2 := by
    injection hav2
  refine ⟨avals2.map (fun v => Value.bool (v = Value.str "Individual")), hout, ?_⟩
  rw [List.all_eq_true]
  intro w hw
  obtain ⟨v, hv, hw2⟩ := List.mem_map.mp hw
  rw [← havals2] at hv
  have hind := applyMask_selfPred hv
  rw [← hw2]
  simp only [decide_eq_true_eq]
  rw [show decide (v = Value.str "Individual") = true from hind]

/-- C5: on every retained row the pipeline maps `emp_length` "10+ years"
to 10, "< 1 year" to 0, "5 years" to 5, and a missing value to 0 via the
"0 years" fill; the output column is the image of a subsequence (the
retained rows) of the input column under that per-cell map. -/
theorem C5_emp_length_mapping {dict : List DictRow} {df out : Table}
    {vals : List Value}
    (h : clean_dataset dict df = .ok out)
    (hv : getCol df "emp_length" = some vals) :
    ∃ ys, getCol out "emp_length" = some ys ∧
      (ys.map some).Sublist (vals.map empLengthMap) ∧
      empLengthMap (Value.str "10+ years") = some (Value.int 10) ∧
      empLengthMap (Value.str "< 1 year") = some (Value.int 0) ∧
      empLengthMap (Value.str "5 years") = some (Value.int 5) ∧
      empLengthMap Value.na = some (Value.int 0) := by
  obtain ⟨d1, mid, mid2, h1, h2, h3, h4⟩ := clean_dataset_decomp h
  -- track emp_length through the labelling stage
  unfold add_target_variable at h1
  cases hst : getCol df "loan_status" with
  | none => rw [hst] at h1; exact absurd h1 (by simp)
  | some status =>
  rw [hst] at h1
  dsimp only at h1
  obtain ⟨dd2, hfr, hdrop⟩ := exceptBind_ok h1
  obtain ⟨avals, hg, hdd2⟩ := filterRows_ok hfr
  have hd1emp : getCol d1 "emp_length" =
      some (applyMask (avals.map (isinStr target_values)) vals) := by
    rw [dropStrict_ok hdrop, getCol_dropIgnore_not_mem _ _ _ (by decide), hdd2,
      getCol_mapValues
        (setCol df "target"
          (status.map (fun v => Value.bool (isinStr default_client_values v))))
        (fun _ ws => applyMask (avals.map (isinStr target_values)) ws) _,
      getCol_setCol_ne _ _ _ _ (by decide), hv]
    rfl
  -- track it through the missing-value stage
  obtain ⟨m1, hmid⟩ := fmv_emp_length h2 hd1emp
  -- the leakage stage leaves it unchanged
  have hmid2 : getCol mid2 "emp_length" = getCol mid "emp_length" := by
    unfold remove_future_columns at h3
    rw [dropStrict_ok h3]
    exact getCol_dropIgnore_not_mem _ _ _ (by decide)
  -- the type stage converts it
  obtain ⟨ev, iv, hev, hout, hmap⟩ := fix_dtypes_emp_length h4
  rw [hmid2, hmid] at hev
  have hev2 : applyMask m1 (fillnaList
      (applyMask (avals.map (isinStr target_values)) vals)
      (Value.str "0 years")) = ev := by
    injection hev
  refine ⟨iv, hout, ?_, by decide, by decide, by decide, by decide⟩
  rw [hmap, ← hev2, ← applyMask_map]
  have hrw : (fillnaList (applyMask (avals.map (isinStr target_values)) vals)
      (Value.str "0 years")).map empDtypeMap =
      applyMask (avals.map (isinStr target_values)) (vals.map empLengthMap) := by
    rw [show fillnaList (applyMask (avals.map (isinStr target_values)) vals)
      (Value.str "0 years") =
      (applyMask (avals.map (isinStr target_values)) vals).map
        (fillnaVal (Value.str "0 years")) from rfl,
      List.map_map, ← applyMask_map]
    rfl
  rw [hrw]
  exact (applyMask_sublist _ _).trans (applyMask_sublist _ _)

/-! ## Concrete example tables -/

/-- C3 (refuting evaluation): `fix_dtypes` maps the term value
"36 months" to `is_36_month_term = True` but `term_months = 6`, not 36:
the `[1:3]` slice takes the characters at offsets 1 and 2 ("6 " parses to
6).  The slice offsets assume the raw-data format with a leading space
(" 36 months"), on which `term_months` is 36 — but there the equality
test of line 42 yields `is_36_month_term = False`.  No term encoding
satisfies both halves of the claimed mapping at once. -/
theorem C3_term_mapping_bug :
    fix_dtypes c3_plain = .ok c3_plain_out ∧
    getCol c3_plain_out "is_36_month_term" =
      some [Value.bool true, Value.bool false] ∧
    getCol c3_plain_out "term_months" = some [Value.int 6, Value.int 0] ∧
    fix_dtypes c3_spaced = .ok c3_spaced_out ∧
    getCol c3_spaced_out "is_36_month_term" =
      some [Value.bool false, Value.bool false] ∧
    getCol c3_spaced_out "term_months" = some [Value.int 36, Value.int 60] := by
  exact ⟨rfl, rfl, rfl, rfl, rfl, rfl⟩

/-- Witness for C1 at the example table. -/
theorem C1_witness : hasNoNa exMid = true :=
  @C1_resolver_no_missing exDict exDf1 exMid (by decide) (by rfl)

theorem C2_witness :
    getCol exMid "has_public_record" =
      some [Value.bool false, Value.bool true, Value.bool false, Value.bool true] ∧
    getCol exMid "has_recent_bc_dlq" =
      some [Value.bool true, Value.bool false, Value.bool true, Value.bool false] ∧
    getCol exMid "has_major_derog" =
      some [Value.bool false, Value.bool false, Value.bool true, Value.bool true] ∧
    getCol exMid "has_recent_revol_delinq" =
      some [Value.bool true, Value.bool true, Value.bool false, Value.bool true] ∧
    getCol exMid "has_recent_delinq" =
      some [Value.bool false, Value.bool true, Value.bool true, Value.bool false] :=
  @C2_presence_flags exDict exDf1 exMid exApp1 exS1 exS2 exS3 exS4 exS5
    (by rfl) (by rfl) (by rfl) (by rfl) (by rfl) (by rfl) (by rfl)

/-- Witness for C4: status "Fully Paid" yields target False retained,
"Charged Off" yields True retained, "Current" is removed, and
`loan_status` is gone. -/
theorem C4_witness :
    getCol c4Out "loan_status" = none ∧
    getCol c4Out "target" = some [Value.bool false, Value.bool true] :=
  @C4_add_target c4Table c4Out
    [Value.str "Fully Paid", Value.str "Charged Off", Value.str "Current"]
    (by rfl) (by rfl)

/-- Witness for C5 at the example table: the four retained rows carry
emp_length "10+ years", "< 1 year", "5 years" and missing, mapped to
10, 0, 5 and 0. -/
theorem C5_witness :
    getCol exOut "emp_length" =
      some [Value.int 10, Value.int 0, Value.int 5, Value.int 0] ∧
    empLengthMap (Value.str "10+ years") = some (Value.int 10) ∧
    empLengthMap (Value.str "< 1 year") = some (Value.int 0) ∧
    empLengthMap (Value.str "5 years") = some (Value.int 5) ∧
    empLengthMap Value.na = some (Value.int 0) := by
  obtain ⟨ys, hy, -, hm1, hm2, hm3, hm4⟩ :=
    C5_emp_length_mapping (show clean_dataset exDict exTable = .ok exOut from rfl)
      (show getCol exTable "emp_length" = some
        [.str "10+ years", .str "< 1 year", .str "1 year",
         .str "3 years", .str "5 years", .na] from rfl)
  have hys : ys = [Value.int 10, Value.int 0, Value.int 5, Value.int 0] := by
    have h2 : some ys =
        some [Value.int 10, Value.int 0, Value.int 5, Value.int 0] := by
      rw [← hy]
      rfl
    injection h2
  rw [← hys]
  exact ⟨hy, hm1, hm2, hm3, hm4⟩

/-- Witness for C7 at the example table: none of the leakage columns is
present in the final table. -/
theorem C7_witness :
    future_cols.all (fun n => (getCol exOut n).isNone) = true := by
  have h := C7_no_leakage_columns
    (show clean_dataset exDict exTable = .ok exOut from rfl)
  rw [List.all_eq_true]
  intro n hn
  rw [h n hn]
  rfl

/-- Witness for C8 at the example table: no joint-named column survives
and every row kept by the missing-value stage is an Individual
application. -/
theorem C8_witness :
    exTable.any (fun c => isJointName c.1) = true ∧
    exOut.all (fun c => !(isJointName c.1)) = true ∧
    ((getCol exMid "application_type").getD []).all
      (fun v => v = Value.str "Individual") = true := by
  have h := C8_joint_purge
    (show clean_dataset exDict exTable = .ok exOut from rfl)
  refine ⟨by rfl, ?_, ?_⟩
  · rw [List.all_eq_true]
    intro c hc
    rw [h.1 c hc]
    rfl
  · have h2 := h.2 exDf1 exMid rfl rfl
      ((getCol exMid "application_type").getD []) rfl
    rw [List.all_eq_true]
    intro v hv
    rw [show v = Value.str "Individual" from h2 v hv]
    rfl

/-- Witness for C9 at the example table: `is_individual_app` is constant
True over the four retained rows. -/
theorem C9_witness :
    getCol exOut "is_individual_app" =
      some (List.replicate 4 (Value.bool true)) := by
  obtain ⟨vals, hv, -⟩ := C9_is_individual_app_true
    (show clean_dataset exDict exTable = .ok exOut from rfl)
  have hvals : vals = List.replicate 4 (Value.bool true) := by
    have h2 : some vals = some (List.replicate 4 (Value.bool true)) := by
      rw [← hv]
      rfl
    injection h2
  rw [hv, hvals]

/-- Witness for C10 at the example table. -/
theorem C10_witness :
    getCol exMid "mths_since_last_record" = none ∧
    getCol exMid "mths_since_recent_bc_dlq" = none ∧
    getCol exMid "mths_since_last_major_derog" = none ∧
    getCol exMid "mths_since_recent_revol_delinq" = none ∧
    getCol exMid "mths_since_last_delinq" = none :=
  @C10_flag_sources_dropped exDict exDf1 exMid (by rfl)
